import Mathlib

/-!
Verification of the gxml-web geometry render/serialization layer.

The development shallowly embeds the two render sinks of the repository
(JSONRenderEngine and BinaryRenderEngine) together with the timing
formatter, and proves the spec claims about them.

Modelling conventions:
- Python floats are modelled as exact rationals; IEEE rounding is the
  precision slack the spec itself waives ("within float32 precision").
- Strings that travel as UTF-8 byte sequences (panel ids, color strings)
  are modelled as lists of byte values, so str.encode is the identity.
- A serialized buffer is a list of cells; an integer byte occupies one
  byte and a packed float32 occupies four, which keeps all offset and
  length accounting byte-exact without modelling IEEE bit patterns.
- Exceptions are modelled with Except/Option: struct.pack range errors
  and ValueError/IndexError/TypeError paths return errors, and the
  catch-all around the optional endpoint computation is the explicit
  fallback cascade in endpoint computation below.
-/

namespace GxmlWeb

/-- A UTF-8 byte string: panel ids and color strings as byte values. -/
abbrev ByteStr := List Nat

/-- A 3D point with exact rational coordinates. -/
abbrev Q3 := ℚ × ℚ × ℚ

/-- Byte values of an ASCII string literal. -/
def strBytes (s : String) : ByteStr := s.data.map Char.toNat

/-- View of an Except value as a sum, to derive decidable equality. -/
def exceptToSum {ε α : Type} : Except ε α → ε ⊕ α
  | .error e => .inl e
  | .ok a => .inr a

instance {ε α : Type} [DecidableEq ε] [DecidableEq α] : DecidableEq (Except ε α) :=
  fun a b =>
    decidable_of_iff (exceptToSum a = exceptToSum b)
      (by cases a <;> cases b <;> simp [exceptToSum])

/-- Input points as the engines receive them: an ordered numeric sequence
(tuple/list, z optional) or an object exposing named x/y/z fields. -/
inductive RawPoint where
  | seq (coords : List ℚ)
  | vec (x y z : ℚ)

/-- Point normalization shared by both engines' create_poly:
x, y = float(p[0]), float(p[1]); z = float(p[2]) if len(p) > 2 else 0.0,
with the TypeError fallback to the object's x/y/z fields.  A sequence with
fewer than two components raises IndexError, which the except clause does
not catch, so it propagates as a hard failure. -/
def normPoint : RawPoint → Except String Q3
  | .seq (x :: y :: z :: _) => .ok (x, y, z)
  | .seq [x, y] => .ok (x, y, 0)
  | .seq _ => .error "IndexError: list index out of range"
  | .vec x y z => .ok (x, y, z)

/-- An element handed to pre_render by the external traversal engine.
transform_point models the optional point-transform capability; its
calls may raise (modelled as Except.error). -/
structure Element where
  id : Option ByteStr
  subId : Option ByteStr
  color : Option ByteStr
  transform_point : Option (Q3 → Except Unit (List ℚ))
  rotation : Option (List ℚ)

/-- The shared 12-entry color palette. -/
def colorPalette : List ByteStr :=
  [strBytes "#e94560", strBytes "#0f3460", strBytes "#16213e", strBytes "#533483",
   strBytes "#1a1a2e", strBytes "#4a4e69", strBytes "#9a8c98", strBytes "#c9ada7",
   strBytes "#22223b", strBytes "#f2e9e4", strBytes "#4361ee", strBytes "#7209b7"]

/-- hasattr(element, 'color') and element.color: the explicit color when
the attribute is present and truthy (non-empty). -/
def explicitColor (e : Element) : Option ByteStr :=
  match e.color with
  | some c => if c.isEmpty then none else some c
  | none => none

/-- The local start query point (0, 0.5, 0) handed to transform_point. -/
def startQuery : Q3 := (0, 1/2, 0)

/-- The local end query point (1, 0.5, 0) handed to transform_point. -/
def endQuery : Q3 := (1, 1/2, 0)

/-- float(pt[0]), float(pt[1]), float(pt[2]) if len(pt) > 2 else 0.0 on a
transform result; none models the IndexError a short sequence raises. -/
def convSeq (l : List ℚ) : Option Q3 :=
  match l with
  | x :: y :: z :: _ => some (x, y, z)
  | [x, y] => some (x, y, 0)
  | _ => none

/-- float(rotation[0..2]); none models the IndexError when fewer than
three components are available. -/
def convRot (l : List ℚ) : Option Q3 :=
  match l with
  | x :: y :: z :: _ => some (x, y, z)
  | _ => none

/-- Result of the JSON engine's optional endpoint block. -/
structure EndpointsJ where
  startPoint : Option Q3
  endPoint : Option Q3
  rotation : Option Q3
deriving DecidableEq, Repr

/-- The JSON engine's try block in pre_render: both transform_point calls
run first; then startPoint is assigned, then endPoint, then rotation.
An exception at any step aborts the rest of the block but keeps the
assignments already made, mirroring the catch-all except. -/
def endpointComputeJ (e : Element) : EndpointsJ :=
  match e.transform_point with
  | none => ⟨none, none, none⟩
  | some tp =>
    match tp startQuery with
    | .error _ => ⟨none, none, none⟩
    | .ok start_pt =>
      match tp endQuery with
      | .error _ => ⟨none, none, none⟩
      | .ok end_pt =>
        match convSeq start_pt with
        | none => ⟨none, none, none⟩
        | some sp =>
          match convSeq end_pt with
          | none => ⟨some sp, none, none⟩
          | some ep =>
            match e.rotation with
            | none => ⟨some sp, some ep, none⟩
            | some r =>
              match convRot r with
              | none => ⟨some sp, some ep, none⟩
              | some rot => ⟨some sp, some ep, some rot⟩

/-- The binary engine's try block in pre_render: identical to the JSON
engine's except that no rotation is read. -/
def endpointComputeB (e : Element) : Option Q3 × Option Q3 :=
  match e.transform_point with
  | none => (none, none)
  | some tp =>
    match tp startQuery with
    | .error _ => (none, none)
    | .ok start_pt =>
      match tp endQuery with
      | .error _ => (none, none)
      | .ok end_pt =>
        match convSeq start_pt with
        | none => (none, none)
        | some sp =>
          match convSeq end_pt with
          | none => (some sp, none)
          | some ep => (some sp, some ep)

/-- getattr(element, 'id', None) or '': None and the empty string both
yield the empty string. -/
def orEmpty (o : Option ByteStr) : ByteStr :=
  match o with
  | none => []
  | some s => if s.isEmpty then [] else s

/-- Single-pass bounding-box accumulator; none models the float inf /
-inf seeds, below (above) every encountered coordinate. -/
def updMin (acc : Option ℚ) (x : ℚ) : Option ℚ :=
  match acc with
  | none => some x
  | some m => if x < m then some x else some m

def updMax (acc : Option ℚ) (x : ℚ) : Option ℚ :=
  match acc with
  | none => some x
  | some m => if x > m then some x else some m

structure BBox where
  min_x : Option ℚ
  max_x : Option ℚ
  min_y : Option ℚ
  max_y : Option ℚ
  min_z : Option ℚ
  max_z : Option ℚ
deriving DecidableEq, Repr

/-- The inline bounding-box tracking of JSONRenderEngine.create_poly. -/
def bboxFold (nps : List Q3) : BBox :=
  nps.foldl
    (fun bb p =>
      { min_x := updMin bb.min_x p.1, max_x := updMax bb.max_x p.1,
        min_y := updMin bb.min_y p.2.1, max_y := updMax bb.max_y p.2.1,
        min_z := updMin bb.min_z p.2.2, max_z := updMax bb.max_z p.2.2 })
    ⟨none, none, none, none, none, none⟩

/-- Monadic map over Except, mirroring a Python loop that may raise. -/
def mapEx (f : α → Except String β) : List α → Except String (List β)
  | [] => .ok []
  | a :: as => do
    let b ← f a
    let bs ← mapEx f as
    .ok (b :: bs)

/-- int(s, 16) on a two-character slice of hex digits; error models the
ValueError raised on a non-hex character. -/
def int16two (a b : Nat) : Except String Nat :=
  match hexDigitVal a, hexDigitVal b with
  | some x, some y => .ok (16 * x + y)
  | _, _ => .error "ValueError: invalid literal for int with base 16"
where
  hexDigitVal (c : Nat) : Option Nat :=
    if 48 ≤ c ∧ c ≤ 57 then some (c - 48)
    else if 97 ≤ c ∧ c ≤ 102 then some (c - 87)
    else if 65 ≤ c ∧ c ≤ 70 then some (c - 55)
    else none

/-- hex_to_rgb: strip leading '#' characters (byte 35); a six-character
remainder is parsed as three hex pairs scaled to the 0..1 range, anything
else yields the gray default (0.5, 0.5, 0.5). -/
def hex_to_rgb (hex_color : ByteStr) : Except String Q3 :=
  let h := hex_color.dropWhile (· == 35)
  if h.length = 6 then do
    let r ← int16two (h.getD 0 0) (h.getD 1 0)
    let g ← int16two (h.getD 2 0) (h.getD 3 0)
    let b ← int16two (h.getD 4 0) (h.getD 5 0)
    .ok ((r : ℚ) / 255, (g : ℚ) / 255, (b : ℚ) / 255)
  else
    .ok (1/2, 1/2, 1/2)

/-- id or '' applied to the create_poly id argument of the binary engine. -/
def pyOrStr (s : ByteStr) : ByteStr := if s.isEmpty then [] else s

namespace JSONRenderEngine

/-- The _panel_data dict of the JSON engine; fields default to the dict
lookups' None before the first pre_render call. -/
structure PanelData where
  id : Option ByteStr := none
  subId : Option ByteStr := none
  color : Option ByteStr := none
  startPoint : Option Q3 := none
  endPoint : Option Q3 := none
  rotation : Option Q3 := none
deriving DecidableEq, Repr

/-- A panel dict appended by JSONRenderEngine.create_poly. -/
structure Panel where
  id : ByteStr
  points : List Q3
  position : Q3
  size : Q3
  color : Option ByteStr
  geoKey : Option ByteStr
  startPoint : Option Q3
  endPoint : Option Q3
  rotation : Option Q3
deriving DecidableEq, Repr

/-- A line dict appended by JSONRenderEngine.create_line. -/
structure Line where
  id : ByteStr
  points : List Q3
  geoKey : Option ByteStr
deriving DecidableEq, Repr

/-- The mutable state of a JSONRenderEngine instance.  The assigned-but-
never-read current_element field is omitted. -/
structure State where
  panels : List Panel := []
  lines : List Line := []
  panelData : PanelData := {}
  colorIndex : Nat := 0
deriving DecidableEq, Repr

/-- A fresh JSONRenderEngine instance. -/
def init : State := {}

/-- _get_next_color: palette entry at the counter modulo palette length,
then increment the counter. -/
def get_next_color (st : State) : ByteStr × Nat :=
  (colorPalette.getD (st.colorIndex % colorPalette.length) [], st.colorIndex + 1)

/-- JSONRenderEngine.pre_render: record element context, resolve the
color (explicit attribute else next palette entry), and run the
best-effort endpoint/rotation block. -/
def pre_render (element : Element) (st : State) : State :=
  let (col, idx) :=
    match explicitColor element with
    | some c => (c, st.colorIndex)
    | none => get_next_color st
  let eps := endpointComputeJ element
  { st with
    panelData :=
      { id := element.id, subId := element.subId, color := some col,
        startPoint := eps.startPoint, endPoint := eps.endPoint,
        rotation := eps.rotation },
    colorIndex := idx }

/-- JSONRenderEngine.create_poly: normalize the points, track the
bounding box in the same pass, and append the panel dict. -/
def create_poly (id : ByteStr) (points : List RawPoint) (geoKey : Option ByteStr)
    (st : State) : Except String State := do
  let point_list ← mapEx normPoint points
  let bb := bboxFold point_list
  let center : Q3 :=
    if point_list.isEmpty then (0, 0, 0)
    else ((bb.min_x.getD 0 + bb.max_x.getD 0) / 2,
          (bb.min_y.getD 0 + bb.max_y.getD 0) / 2,
          (bb.min_z.getD 0 + bb.max_z.getD 0) / 2)
  let size : Q3 :=
    if point_list.isEmpty then (0, 0, 0)
    else (bb.max_x.getD 0 - bb.min_x.getD 0,
          bb.max_y.getD 0 - bb.min_y.getD 0,
          bb.max_z.getD 0 - bb.min_z.getD 0)
  .ok { st with
        panels := st.panels ++
          [{ id := id, points := point_list, position := center, size := size,
             color := st.panelData.color, geoKey := geoKey,
             startPoint := st.panelData.startPoint,
             endPoint := st.panelData.endPoint,
             rotation := st.panelData.rotation }] }

/-- Point handling in create_line: sequences go through the indexing
path (IndexError on fewer than two components propagates); objects with
named fields are not iterable and raise TypeError here. -/
def normLinePoint : RawPoint → Except String Q3
  | .seq (x :: y :: z :: _) => .ok (x, y, z)
  | .seq [x, y] => .ok (x, y, 0)
  | .seq _ => .error "IndexError: list index out of range"
  | .vec _ _ _ => .error "TypeError: object is not subscriptable"

/-- JSONRenderEngine.create_line. -/
def create_line (id : ByteStr) (points : List RawPoint) (geoKey : Option ByteStr)
    (st : State) : Except String State := do
  let point_list ← mapEx normLinePoint points
  .ok { st with lines := st.lines ++ [{ id := id, points := point_list, geoKey := geoKey }] }

/-- get_or_create_geo returns self. -/
def get_or_create_geo (_key : Option ByteStr) (st : State) : State := st

/-- combine_all_geo is a no-op. -/
def combine_all_geo (st : State) : State := st

/-- The JSON document produced by to_dict. -/
structure RenderDict where
  panels : List Panel
  lines : List Line
deriving DecidableEq, Repr

/-- JSONRenderEngine.to_dict. -/
def to_dict (st : State) : RenderDict :=
  { panels := st.panels, lines := st.lines }

end JSONRenderEngine

namespace BinaryRenderEngine

/-- The _panel_data dict of the binary engine; empty before the first
pre_render call. -/
structure PanelData where
  id : Option ByteStr := none
  color : Option ByteStr := none
  startPoint : Option Q3 := none
  endPoint : Option Q3 := none
deriving DecidableEq, Repr

/-- A collected panel tuple (id, color_rgb, vertices_flat, start, end). -/
structure Panel where
  id : ByteStr
  color_rgb : Q3
  vertices_flat : List ℚ
  startPoint : Option Q3
  endPoint : Option Q3
deriving DecidableEq, Repr

/-- The mutable state of a BinaryRenderEngine instance.  The assigned-
but-never-read current_element field is omitted. -/
structure State where
  panels : List Panel := []
  panelData : PanelData := {}
  colorIndex : Nat := 0
deriving DecidableEq, Repr

/-- A fresh BinaryRenderEngine instance. -/
def init : State := {}

/-- _get_next_color, identical to the JSON engine's. -/
def get_next_color (st : State) : ByteStr × Nat :=
  (colorPalette.getD (st.colorIndex % colorPalette.length) [], st.colorIndex + 1)

/-- BinaryRenderEngine.pre_render. -/
def pre_render (element : Element) (st : State) : State :=
  let (col, idx) :=
    match explicitColor element with
    | some c => (c, st.colorIndex)
    | none => get_next_color st
  let eps := endpointComputeB element
  { st with
    panelData :=
      { id := some (orEmpty element.id), color := some col,
        startPoint := eps.1, endPoint := eps.2 },
    colorIndex := idx }

/-- Flatten normalized points to [x0, y0, z0, x1, y1, z1, ...]. -/
def flattenPts : List Q3 → List ℚ
  | [] => []
  | (x, y, z) :: rest => x :: y :: z :: flattenPts rest

/-- BinaryRenderEngine.create_poly: flatten the normalized points,
convert the current color string to RGB, and append the panel tuple.
The geoKey argument is accepted and unused. -/
def create_poly (id : ByteStr) (points : List RawPoint) (_geoKey : Option ByteStr)
    (st : State) : Except String State := do
  let nested ← mapEx normPoint points
  let vertices_flat := flattenPts nested
  let color_rgb ← hex_to_rgb (st.panelData.color.getD (strBytes "#888888"))
  .ok { st with
        panels := st.panels ++
          [{ id := pyOrStr id, color_rgb := color_rgb,
             vertices_flat := vertices_flat,
             startPoint := st.panelData.startPoint,
             endPoint := st.panelData.endPoint }] }

/-- create_line is a no-op: lines are not represented in the binary
format. -/
def create_line (_id : ByteStr) (_points : List RawPoint) (_geoKey : Option ByteStr)
    (st : State) : State := st

/-- get_or_create_geo returns self. -/
def get_or_create_geo (_key : Option ByteStr) (st : State) : State := st

/-- combine_all_geo is a no-op. -/
def combine_all_geo (st : State) : State := st

end BinaryRenderEngine

/-- One cell of a serialized buffer: an integer byte (one byte wide) or a
packed float32 (four bytes wide, holding the exact rational the engine
packed). -/
inductive Cell where
  | byte (b : Nat)
  | f32 (q : ℚ)
deriving DecidableEq, Repr

/-- Width in bytes of one cell. -/
def cellBytes : Cell → Nat
  | .byte _ => 1
  | .f32 _ => 4

/-- Byte length of a buffer. -/
def bytesOf (cs : List Cell) : Nat := (cs.map cellBytes).sum

/-- struct.pack of an unsigned 16-bit little-endian field; out-of-range
values raise struct.error. -/
def packU16 (n : Nat) : Except String (List Cell) :=
  if n ≤ 65535 then .ok [.byte (n % 256), .byte (n / 256 % 256)]
  else .error "struct.error: H format requires 0 <= number <= 65535"

/-- struct.pack of an unsigned 32-bit little-endian field; out-of-range
values raise struct.error. -/
def packU32 (n : Nat) : Except String (List Cell) :=
  if n ≤ 4294967295 then
    .ok [.byte (n % 256), .byte (n / 256 % 256),
         .byte (n / 65536 % 256), .byte (n / 16777216 % 256)]
  else .error "struct.error: I format requires 0 <= number <= 4294967295"

namespace BinaryRenderEngine

/-- The four magic bytes "GXML". -/
def magicCells : List Cell := (strBytes "GXML").map .byte

/-- Total vertex count: sum over panels of len(vertices_flat) // 3. -/
def totalVertices (st : State) : Nat :=
  (st.panels.map (fun p => p.vertices_flat.length / 3)).sum

/-- The 16-byte header: magic, version 2, panel count, total vertices. -/
def headerCells (st : State) : Except String (List Cell) := do
  let v ← packU32 2
  let pc ← packU32 st.panels.length
  let tv ← packU32 (totalVertices st)
  .ok (magicCells ++ v ++ pc ++ tv)

/-- 1 if (start_point and end_point) else 0. -/
def hasEndpointsFlag (p : Panel) : Nat :=
  if p.startPoint.isSome && p.endPoint.isSome then 1 else 0

/-- struct.pack of the fixed 20-byte per-panel header
(idLength, vertexCount, color RGB, hasEndpoints, 3 reserved zero bytes). -/
def panelHeaderCells (p : Panel) : Except String (List Cell) := do
  let il ← packU16 p.id.length
  let vc ← packU16 (p.vertices_flat.length / 3)
  .ok (il ++ vc ++
       [.f32 p.color_rgb.1, .f32 p.color_rgb.2.1, .f32 p.color_rgb.2.2,
        .byte (hasEndpointsFlag p), .byte 0, .byte 0, .byte 0])

/-- The 24 endpoint bytes, present only when both endpoints were
recorded. -/
def endpointCells (p : Panel) : List Cell :=
  match p.startPoint, p.endPoint with
  | some s, some e =>
    [.f32 s.1, .f32 s.2.1, .f32 s.2.2, .f32 e.1, .f32 e.2.1, .f32 e.2.2]
  | _, _ => []

/-- The UTF-8 id bytes. -/
def idCells (p : Panel) : List Cell := p.id.map .byte

/-- (4 - idLength mod 4) mod 4 zero bytes of padding after the id. -/
def padCells (p : Panel) : List Cell :=
  (List.replicate ((4 - p.id.length % 4) % 4) 0).map .byte

/-- The float32 vertex array. -/
def vertexCells (p : Panel) : List Cell := p.vertices_flat.map .f32

/-- The full serialized section of one panel. -/
def packPanel (p : Panel) : Except String (List Cell) := do
  let hd ← panelHeaderCells p
  .ok (hd ++ endpointCells p ++ idCells p ++ padCells p ++ vertexCells p)

/-- BinaryRenderEngine.to_bytes: header followed by each panel's section
in accumulator order.  Any struct.error aborts the whole serialization,
so no buffer is produced on failure. -/
def to_bytes (st : State) : Except String (List Cell) := do
  let hd ← headerCells st
  let bodies ← mapEx packPanel st.panels
  .ok (hd ++ bodies.flatten)

end BinaryRenderEngine

namespace Decoder

/-!
Modelled from the spec: the repository ships no decoder; this reader
follows the wire-format description of spec section 4.4 (header with
magic/version/panelCount/totalVertexCount, then per panel idLength,
vertexCount, color, hasEndpoints, reserved, optional endpoints, id
bytes, alignment padding, float32 vertices, parsed sequentially).
-/

/-- A panel as an independent reader reconstructs it. -/
structure DecPanel where
  id : ByteStr
  vertexCount : Nat
  color : Q3
  hasEndpoints : Bool
  startPoint : Option Q3
  endPoint : Option Q3
  points : List Q3
deriving DecidableEq, Repr

/-- Read one integer byte. -/
def readByte : List Cell → Option (Nat × List Cell)
  | .byte b :: rest => some (b, rest)
  | _ => none

/-- Read one float32. -/
def readF32 : List Cell → Option (ℚ × List Cell)
  | .f32 q :: rest => some (q, rest)
  | _ => none

/-- Read n integer bytes. -/
def readBytesN : Nat → List Cell → Option (List Nat × List Cell)
  | 0, cs => some ([], cs)
  | n + 1, cs => do
    let (b, cs1) ← readByte cs
    let (bs, cs2) ← readBytesN n cs1
    some (b :: bs, cs2)

/-- Read a little-endian unsigned 16-bit value. -/
def readU16 (cs : List Cell) : Option (Nat × List Cell) := do
  let (b0, cs1) ← readByte cs
  let (b1, cs2) ← readByte cs1
  some (b0 + 256 * b1, cs2)

/-- Read a little-endian unsigned 32-bit value. -/
def readU32 (cs : List Cell) : Option (Nat × List Cell) := do
  let (b0, cs1) ← readByte cs
  let (b1, cs2) ← readByte cs1
  let (b2, cs3) ← readByte cs2
  let (b3, cs4) ← readByte cs3
  some (b0 + 256 * b1 + 65536 * b2 + 16777216 * b3, cs4)

/-- Read one (x, y, z) float32 triple. -/
def readPt (cs : List Cell) : Option (Q3 × List Cell) := do
  let (x, cs1) ← readF32 cs
  let (y, cs2) ← readF32 cs1
  let (z, cs3) ← readF32 cs2
  some ((x, y, z), cs3)

/-- Read n (x, y, z) float32 triples. -/
def readPts : Nat → List Cell → Option (List Q3 × List Cell)
  | 0, cs => some ([], cs)
  | n + 1, cs => do
    let (p, cs1) ← readPt cs
    let (ps, cs2) ← readPts n cs1
    some (p :: ps, cs2)

/-- Parse one panel section. -/
def decodePanel (cs : List Cell) : Option (DecPanel × List Cell) := do
  let (idLength, cs) ← readU16 cs
  let (vertexCount, cs) ← readU16 cs
  let (r, cs) ← readF32 cs
  let (g, cs) ← readF32 cs
  let (b, cs) ← readF32 cs
  let (hasEp, cs) ← readByte cs
  let (_, cs) ← readBytesN 3 cs
  let (eps, cs) ←
    if hasEp = 1 then do
      let (s, cs1) ← readPt cs
      let (e, cs2) ← readPt cs1
      some (some (s, e), cs2)
    else some ((none : Option (Q3 × Q3)), cs)
  let (idb, cs) ← readBytesN idLength cs
  let (_, cs) ← readBytesN ((4 - idLength % 4) % 4) cs
  let (pts, cs) ← readPts vertexCount cs
  some ({ id := idb, vertexCount := vertexCount, color := (r, g, b),
          hasEndpoints := hasEp == 1,
          startPoint := eps.map Prod.fst, endPoint := eps.map Prod.snd,
          points := pts }, cs)

/-- Parse n consecutive panel sections. -/
def decodePanels : Nat → List Cell → Option (List DecPanel × List Cell)
  | 0, cs => some ([], cs)
  | n + 1, cs => do
    let (p, cs1) ← decodePanel cs
    let (ps, cs2) ← decodePanels n cs1
    some (p :: ps, cs2)

/-- Parse a whole buffer: check the magic, reject unknown versions, then
read panelCount panel sections and require the buffer to be exactly
consumed. -/
def decode (buf : List Cell) : Option (List DecPanel) := do
  let (magic, cs) ← readBytesN 4 buf
  if magic ≠ strBytes "GXML" then none
  else do
    let (version, cs) ← readU32 cs
    if version ≠ 2 then none
    else do
      let (panelCount, cs) ← readU32 cs
      let (_totalVertexCount, cs) ← readU32 cs
      let (ps, cs) ← decodePanels panelCount cs
      if cs.isEmpty then some ps else none

end Decoder

/-- A raw profile marker: a mapping of numeric fields (total_ms, count,
avg_ms, ...), per the documented input type of the timing formatter. -/
abbrev Marker := List (String × ℚ)

/-- The raw stage-timing mapping from the upstream engine. -/
abbrev RawTimings := List (String × Marker)

/-- A value of the web-friendly timing mapping: a flat duration or the
raw marker mapping. -/
inductive TimingVal where
  | num (q : ℚ)
  | markers (m : RawTimings)
deriving DecidableEq, Repr

/-- ms(name): profile_results.get(name, curly).get('total_ms', 0.0). -/
def msLookup (profile_results : RawTimings) (name : String) : ℚ :=
  (((profile_results.lookup name).getD []).lookup "total_ms").getD 0

/-- format_timings_for_web: None or an empty mapping yields an empty
mapping; otherwise the eleven flat keys each resolved independently plus
the markers key carrying the raw mapping. -/
def format_timings_for_web (profile_results : Option RawTimings) :
    List (String × TimingVal) :=
  match profile_results with
  | none => []
  | some raw =>
    if raw.isEmpty then []
    else
      [("parse", .num (msLookup raw "parse")),
       ("measure", .num (msLookup raw "measure_pass")),
       ("prelayout", .num (msLookup raw "pre_layout_pass")),
       ("layout", .num (msLookup raw "layout_pass")),
       ("postlayout", .num (msLookup raw "post_layout_pass")),
       ("render", .num (msLookup raw "render")),
       ("intersection", .num (msLookup raw "intersection_solver")),
       ("face", .num (msLookup raw "face_solver")),
       ("geometry", .num (msLookup raw "geometry_builder")),
       ("fastmesh", .num (msLookup raw "fast_mesh_builder")),
       ("serialize", .num (msLookup raw "serialize")),
       ("markers", .markers raw)]

/-- One call of the external traversal engine into a render sink. -/
inductive Ev where
  | preRender (element : Element)
  | createPoly (id : ByteStr) (points : List RawPoint) (geoKey : Option ByteStr)

/-- Drive one event into a JSON engine. -/
def stepJ (st : JSONRenderEngine.State) : Ev → Except String JSONRenderEngine.State
  | .preRender e => .ok (JSONRenderEngine.pre_render e st)
  | .createPoly id pts gk => JSONRenderEngine.create_poly id pts gk st

/-- Drive one event into a binary engine. -/
def stepB (st : BinaryRenderEngine.State) : Ev → Except String BinaryRenderEngine.State
  | .preRender e => .ok (BinaryRenderEngine.pre_render e st)
  | .createPoly id pts gk => BinaryRenderEngine.create_poly id pts gk st

/-- Drive a call sequence into a JSON engine state. -/
def runJFrom : List Ev → JSONRenderEngine.State → Except String JSONRenderEngine.State
  | [], st => .ok st
  | ev :: evs, st => do runJFrom evs (← stepJ st ev)

/-- Drive a call sequence into a binary engine state. -/
def runBFrom : List Ev → BinaryRenderEngine.State → Except String BinaryRenderEngine.State
  | [], st => .ok st
  | ev :: evs, st => do runBFrom evs (← stepB st ev)

/-- Drive a call sequence into a fresh JSON engine. -/
def runJ (evs : List Ev) : Except String JSONRenderEngine.State :=
  runJFrom evs JSONRenderEngine.init

/-- Drive a call sequence into a fresh binary engine. -/
def runB (evs : List Ev) : Except String BinaryRenderEngine.State :=
  runBFrom evs BinaryRenderEngine.init

/-- The documented driving protocol: a polygon is only ever registered
for a previously visited element, so a non-empty call sequence opens
with pre_render. -/
def wfScript : List Ev → Bool
  | [] => true
  | .preRender _ :: _ => true
  | .createPoly _ _ _ :: _ => false

/-- A sequence of pre_render calls into a JSON engine. -/
def preFoldJ (es : List Element) (st : JSONRenderEngine.State) : JSONRenderEngine.State :=
  es.foldl (fun s e => JSONRenderEngine.pre_render e s) st

/-- A sequence of pre_render calls into a binary engine. -/
def preFoldB (es : List Element) (st : BinaryRenderEngine.State) : BinaryRenderEngine.State :=
  es.foldl (fun s e => BinaryRenderEngine.pre_render e s) st

/-- Regroup a flat float list into (x, y, z) triples. -/
def chunk3 : List ℚ → List Q3
  | x :: y :: z :: rest => (x, y, z) :: chunk3 rest
  | _ => []

/-- The panel an independent reader recovers from one serialized panel
section: id bytes, vertex count, color, and regrouped points; endpoints
only when the hasEndpoints flag was set. -/
def decOfPanel (p : BinaryRenderEngine.Panel) : Decoder.DecPanel :=
  let flag := p.startPoint.isSome && p.endPoint.isSome
  { id := p.id
    vertexCount := p.vertices_flat.length / 3
    color := p.color_rgb
    hasEndpoints := flag
    startPoint := if flag then p.startPoint else none
    endPoint := if flag then p.endPoint else none
    points := chunk3 p.vertices_flat }

/-- Correspondence between a JSON panel and a binary panel built from
the same create_poly call: same id bytes, the binary floats are the
flattened JSON points, the binary RGB is the parse of the JSON color
string, and the recorded endpoints agree. -/
def panelRel (jp : JSONRenderEngine.Panel) (bp : BinaryRenderEngine.Panel) : Prop :=
  bp.id = jp.id ∧
  bp.vertices_flat = BinaryRenderEngine.flattenPts jp.points ∧
  (∃ c, jp.color = some c ∧ hex_to_rgb c = .ok bp.color_rgb) ∧
  bp.startPoint = jp.startPoint ∧
  bp.endPoint = jp.endPoint

/-- Correspondence between the two engines' full states when driven by
the same call sequence. -/
def stRel (j : JSONRenderEngine.State) (b : BinaryRenderEngine.State) : Prop :=
  j.colorIndex = b.colorIndex ∧
  j.panelData.color = b.panelData.color ∧
  j.panelData.startPoint = b.panelData.startPoint ∧
  j.panelData.endPoint = b.panelData.endPoint ∧
  List.Forall₂ panelRel j.panels b.panels

/-- The per-panel correspondence claimed for the binary round trip:
decoding reproduces the id bytes, the vertex count, the color (the parse
of the JSON color string), and the points of the JSON panel. -/
def roundtripRel (dp : Decoder.DecPanel) (jp : JSONRenderEngine.Panel) : Prop :=
  dp.id = jp.id ∧
  dp.vertexCount = jp.points.length ∧
  (∃ c, jp.color = some c ∧ hex_to_rgb c = .ok dp.color) ∧
  dp.points = jp.points

/-- The 16 header bytes of an empty accumulator: magic "GXML",
version 2, panelCount 0, totalVertexCount 0, all little-endian. -/
def emptyHeader : List Cell :=
  [.byte 71, .byte 88, .byte 77, .byte 76,
   .byte 2, .byte 0, .byte 0, .byte 0,
   .byte 0, .byte 0, .byte 0, .byte 0,
   .byte 0, .byte 0, .byte 0, .byte 0]

/-- An element carrying the three-digit shorthand color "#fff". -/
def elemFFF : Element :=
  { id := none, subId := none, color := some (strBytes "#fff"),
    transform_point := none, rotation := none }

/-- The binary engine state after pre_render elemFFF and one empty
create_poly on a fresh instance. -/
def c10bst : BinaryRenderEngine.State :=
  { panels := [{ id := [], color_rgb := (1/2, 1/2, 1/2), vertices_flat := [],
                 startPoint := none, endPoint := none }],
    panelData := { id := some [], color := some (strBytes "#fff"),
                   startPoint := none, endPoint := none },
    colorIndex := 0 }

/-- The JSON engine state after the same two calls on a fresh instance. -/
def c10jst : JSONRenderEngine.State :=
  { panels := [{ id := [], points := [], position := (0, 0, 0), size := (0, 0, 0),
                 color := some (strBytes "#fff"), geoKey := none,
                 startPoint := none, endPoint := none, rotation := none }],
    lines := [],
    panelData := { id := none, subId := none, color := some (strBytes "#fff"),
                   startPoint := none, endPoint := none, rotation := none },
    colorIndex := 0 }

/-- An element with no id, no color, and no transform capability. -/
def elemPlain : Element :=
  { id := none, subId := none, color := none, transform_point := none, rotation := none }

/-- The JSON engine state after create_poly with the single raw point
(1, 2) on a fresh instance; written with its arithmetic unevaluated,
exactly as create_poly builds it. -/
def c6st : JSONRenderEngine.State :=
  { panels := [{ id := [], points := [((1 : ℚ), (2 : ℚ), (0 : ℚ))],
                 position := ((1 + 1) / 2, (2 + 2) / 2, ((0 : ℚ) + 0) / 2),
                 size := (1 - 1, 2 - 2, (0 : ℚ) - 0),
                 color := none, geoKey := none, startPoint := none,
                 endPoint := none, rotation := none }],
    lines := [], panelData := {}, colorIndex := 0 }

/-- A panel whose UTF-8 id is 65536 bytes of the letter a. -/
def oversizedPanelA : BinaryRenderEngine.Panel :=
  { id := List.replicate 65536 97, color_rgb := (0, 0, 0), vertices_flat := [],
    startPoint := none, endPoint := none }

/-- A panel whose UTF-8 id is 65536 bytes of the letter b. -/
def oversizedPanelB : BinaryRenderEngine.Panel :=
  { id := List.replicate 65536 98, color_rgb := (0, 0, 0), vertices_flat := [],
    startPoint := none, endPoint := none }

/-- An accumulator holding only oversizedPanelA. -/
def oversizedStA : BinaryRenderEngine.State :=
  { panels := [oversizedPanelA], panelData := {}, colorIndex := 0 }

/-- An accumulator holding only oversizedPanelB. -/
def oversizedStB : BinaryRenderEngine.State :=
  { panels := [oversizedPanelB], panelData := {}, colorIndex := 0 }

/-- A one-byte-id panel with no vertices and no endpoints. -/
def c3panel : BinaryRenderEngine.Panel :=
  { id := [97], color_rgb := (0, 0, 0), vertices_flat := [],
    startPoint := none, endPoint := none }

/-- An accumulator holding only c3panel. -/
def c3st : BinaryRenderEngine.State :=
  { panels := [c3panel], panelData := {}, colorIndex := 0 }

/-- The serialized buffer of c3st. -/
def c3buf : List Cell :=
  [.byte 71, .byte 88, .byte 77, .byte 76,
   .byte 2, .byte 0, .byte 0, .byte 0,
   .byte 1, .byte 0, .byte 0, .byte 0,
   .byte 0, .byte 0, .byte 0, .byte 0,
   .byte 1, .byte 0, .byte 0, .byte 0,
   .f32 0, .f32 0, .f32 0,
   .byte 0, .byte 0, .byte 0, .byte 0,
   .byte 97, .byte 0, .byte 0, .byte 0]

/-- The serialized section of c3panel alone. -/
def c4cells : List Cell :=
  [.byte 1, .byte 0, .byte 0, .byte 0,
   .f32 0, .f32 0, .f32 0,
   .byte 0, .byte 0, .byte 0, .byte 0,
   .byte 97, .byte 0, .byte 0, .byte 0]

/-- The binary engine state after pre_render on a plain element followed
by an empty create_poly, written with the untouched palette color term. -/
def c4st : BinaryRenderEngine.State :=
  { panels := [{ id := [],
                 color_rgb := ((Nat.cast 233 : ℚ) / 255, (Nat.cast 69 : ℚ) / 255,
                               (Nat.cast 96 : ℚ) / 255),
                 vertices_flat := [], startPoint := none, endPoint := none }],
    panelData := { id := some [], color := some (strBytes "#e94560"),
                   startPoint := none, endPoint := none },
    colorIndex := 1 }

/-- An element whose transform capability returns the two-component
sequence (1, 2) for the start query but an empty sequence for the end
query, so converting the end point raises IndexError inside the try
block after startPoint has already been assigned. -/
def elemPartial : Element :=
  { id := none, subId := none, color := none,
    transform_point := some (fun q => if q.1 = 0 then .ok [1, 2] else .ok []),
    rotation := none }

/-- The JSON engine state after pre_render elemPartial and one empty
create_poly: the emitted panel keeps startPoint but lacks endPoint. -/
def c8st : JSONRenderEngine.State :=
  { panels := [{ id := [], points := [], position := (0, 0, 0), size := (0, 0, 0),
                 color := some (strBytes "#e94560"), geoKey := none,
                 startPoint := some (1, 2, 0), endPoint := none, rotation := none }],
    lines := [],
    panelData := { id := none, subId := none, color := some (strBytes "#e94560"),
                   startPoint := some (1, 2, 0), endPoint := none, rotation := none },
    colorIndex := 1 }

/-- An element whose transform capability raises on every call. -/
def elemRaise : Element :=
  { id := none, subId := none, color := none,
    transform_point := some (fun _ => .error ()), rotation := none }

/-- The JSON engine state after pre_render elemRaise and one empty
create_poly: no endpoints at all. -/
def c8jst : JSONRenderEngine.State :=
  { panels := [{ id := [], points := [], position := (0, 0, 0), size := (0, 0, 0),
                 color := some (strBytes "#e94560"), geoKey := none,
                 startPoint := none, endPoint := none, rotation := none }],
    lines := [],
    panelData := { id := none, subId := none, color := some (strBytes "#e94560"),
                   startPoint := none, endPoint := none, rotation := none },
    colorIndex := 1 }

/-- The binary engine state after the same two calls on elemRaise. -/
def c8bst : BinaryRenderEngine.State :=
  { panels := [{ id := [],
                 color_rgb := ((Nat.cast 233 : ℚ) / 255, (Nat.cast 69 : ℚ) / 255,
                               (Nat.cast 96 : ℚ) / 255),
                 vertices_flat := [], startPoint := none, endPoint := none }],
    panelData := { id := some [], color := some (strBytes "#e94560"),
                   startPoint := none, endPoint := none },
    colorIndex := 1 }

/-- A protocol-respecting two-call script: one plain element, then one
polygon with id bytes "abcd" and the single raw point (1, 2). -/
def c1script : List Ev :=
  [.preRender elemPlain, .createPoly [97, 98, 99, 100] [.seq [1, 2]] none]

/-- The JSON engine state c1script produces, with its arithmetic terms
written unevaluated exactly as create_poly builds them. -/
def c1jst : JSONRenderEngine.State :=
  { panels := [{ id := [97, 98, 99, 100], points := [((1 : ℚ), (2 : ℚ), (0 : ℚ))],
                 position := ((1 + 1) / 2, (2 + 2) / 2, ((0 : ℚ) + 0) / 2),
                 size := (1 - 1, 2 - 2, (0 : ℚ) - 0),
                 color := some (strBytes "#e94560"), geoKey := none,
                 startPoint := none, endPoint := none, rotation := none }],
    lines := [],
    panelData := { id := none, subId := none, color := some (strBytes "#e94560"),
                   startPoint := none, endPoint := none, rotation := none },
    colorIndex := 1 }

/-- The binary engine state c1script produces. -/
def c1bst : BinaryRenderEngine.State :=
  { panels := [{ id := [97, 98, 99, 100],
                 color_rgb := ((Nat.cast 233 : ℚ) / 255, (Nat.cast 69 : ℚ) / 255,
                               (Nat.cast 96 : ℚ) / 255),
                 vertices_flat := [1, 2, 0], startPoint := none, endPoint := none }],
    panelData := { id := some [], color := some (strBytes "#e94560"),
                   startPoint := none, endPoint := none },
    colorIndex := 1 }

/-- The buffer to_bytes produces for c1bst. -/
def c1buf : List Cell :=
  [.byte 71, .byte 88, .byte 77, .byte 76,
   .byte 2, .byte 0, .byte 0, .byte 0,
   .byte 1, .byte 0, .byte 0, .byte 0,
   .byte 1, .byte 0, .byte 0, .byte 0,
   .byte 4, .byte 0, .byte 1, .byte 0,
   .f32 ((Nat.cast 233 : ℚ) / 255), .f32 ((Nat.cast 69 : ℚ) / 255),
   .f32 ((Nat.cast 96 : ℚ) / 255),
   .byte 0, .byte 0, .byte 0, .byte 0,
   .byte 97, .byte 98, .byte 99, .byte 100,
   .f32 1, .f32 2, .f32 0]

/-! ## General inversion lemmas -/

@[simp]
theorem exc_bind_ok {ε α β : Type} (a : α) (f : α → Except ε β) :
    (Except.ok a >>= f : Except ε β) = f a := rfl

@[simp]
theorem exc_bind_error {ε α β : Type} (e : ε) (f : α → Except ε β) :
    (Except.error e >>= f : Except ε β) = Except.error e := rfl

theorem mapEx_ok_cons {α β : Type} {f : α → Except String β} {a : α} {l : List α}
    {r : List β} (h : mapEx f (a :: l) = .ok r) :
    ∃ b bs, f a = .ok b ∧ mapEx f l = .ok bs ∧ r = b :: bs := by
  cases hfa : f a with
  | error e => simp [mapEx, hfa] at h
  | ok b =>
    cases hfl : mapEx f l with
    | error e => simp [mapEx, hfa, hfl] at h
    | ok bs =>
      simp only [mapEx, hfa, hfl, exc_bind_ok, Except.ok.injEq] at h
      exact ⟨b, bs, rfl, rfl, h.symm⟩

theorem mapEx_ok_mem {α β : Type} {f : α → Except String β} :
    ∀ {l : List α} {r : List β}, mapEx f l = .ok r → ∀ a ∈ l, ∃ b, f a = .ok b := by
  intro l
  induction l with
  | nil => intro r _ a ha; cases ha
  | cons x t ih =>
    intro r h a ha
    obtain ⟨b, bs, hx, ht, rfl⟩ := mapEx_ok_cons h
    rcases List.mem_cons.mp ha with rfl | ha
    · exact ⟨b, hx⟩
    · exact ih ht a ha

theorem packU16_ok {n : Nat} {c : List Cell} (h : packU16 n = .ok c) :
    n ≤ 65535 ∧ c = [.byte (n % 256), .byte (n / 256 % 256)] := by
  by_cases hn : n ≤ 65535
  · simp [packU16, hn] at h
    exact ⟨hn, h.symm⟩
  · simp [packU16, hn] at h

theorem packU32_ok {n : Nat} {c : List Cell} (h : packU32 n = .ok c) :
    n ≤ 4294967295 ∧
      c = [.byte (n % 256), .byte (n / 256 % 256),
           .byte (n / 65536 % 256), .byte (n / 16777216 % 256)] := by
  by_cases hn : n ≤ 4294967295
  · simp [packU32, hn] at h
    exact ⟨hn, h.symm⟩
  · simp [packU32, hn] at h

/-! ## C5: empty accumulator -/

/-- C5: an accumulator with zero panels and zero lines serializes to a
binary buffer of exactly 16 bytes — the little-endian header with magic
"GXML", version 2, panelCount 0, totalVertexCount 0 — and to the JSON
document with empty panels and lines. -/
theorem empty_accumulator_serialization
    (bst : BinaryRenderEngine.State) (jst : JSONRenderEngine.State)
    (hb : bst.panels = []) (hjp : jst.panels = []) (hjl : jst.lines = []) :
    BinaryRenderEngine.to_bytes bst = .ok emptyHeader ∧
    bytesOf emptyHeader = 16 ∧
    JSONRenderEngine.to_dict jst = { panels := [], lines := [] } := by
  have hdep : BinaryRenderEngine.to_bytes bst =
      BinaryRenderEngine.to_bytes { panels := bst.panels } := rfl
  refine ⟨?_, rfl, ?_⟩
  · rw [hdep, hb]
    decide
  · obtain ⟨jpans, jlines, jpd, jci⟩ := jst
    simp only at hjp hjl
    subst hjp hjl
    rfl

/-- Witness for C5 at two fresh engine instances. -/
theorem empty_accumulator_serialization_witness :
    BinaryRenderEngine.to_bytes BinaryRenderEngine.init = .ok emptyHeader ∧
    bytesOf emptyHeader = 16 ∧
    JSONRenderEngine.to_dict JSONRenderEngine.init = { panels := [], lines := [] } :=
  empty_accumulator_serialization BinaryRenderEngine.init JSONRenderEngine.init rfl rfl rfl

/-! ## C9: timing formatter -/

/-- C9: the timing formatter is a total function; None and the empty
mapping give an empty mapping (no markers key, no numeric keys), and a
non-empty raw mapping gives all eleven recognized flat keys resolved
independently (0.0 for a missing stage) plus the markers key carrying
the untransformed raw mapping. -/
theorem timing_format_behavior (raw : RawTimings) (hne : raw ≠ []) :
    format_timings_for_web none = [] ∧
    format_timings_for_web (some []) = [] ∧
    (format_timings_for_web (some raw)).lookup "parse" =
      some (.num (msLookup raw "parse")) ∧
    (format_timings_for_web (some raw)).lookup "measure" =
      some (.num (msLookup raw "measure_pass")) ∧
    (format_timings_for_web (some raw)).lookup "prelayout" =
      some (.num (msLookup raw "pre_layout_pass")) ∧
    (format_timings_for_web (some raw)).lookup "layout" =
      some (.num (msLookup raw "layout_pass")) ∧
    (format_timings_for_web (some raw)).lookup "postlayout" =
      some (.num (msLookup raw "post_layout_pass")) ∧
    (format_timings_for_web (some raw)).lookup "render" =
      some (.num (msLookup raw "render")) ∧
    (format_timings_for_web (some raw)).lookup "intersection" =
      some (.num (msLookup raw "intersection_solver")) ∧
    (format_timings_for_web (some raw)).lookup "face" =
      some (.num (msLookup raw "face_solver")) ∧
    (format_timings_for_web (some raw)).lookup "geometry" =
      some (.num (msLookup raw "geometry_builder")) ∧
    (format_timings_for_web (some raw)).lookup "fastmesh" =
      some (.num (msLookup raw "fast_mesh_builder")) ∧
    (format_timings_for_web (some raw)).lookup "serialize" =
      some (.num (msLookup raw "serialize")) ∧
    (format_timings_for_web (some raw)).lookup "markers" =
      some (.markers raw) ∧
    (∀ stage, raw.lookup stage = none → msLookup raw stage = 0) := by
  obtain ⟨hd, tl, rfl⟩ := List.exists_cons_of_ne_nil hne
  refine ⟨rfl, rfl, rfl, rfl, rfl, rfl, rfl, rfl, rfl, rfl, rfl, rfl, rfl, rfl, ?_⟩
  intro stage hst
  simp [msLookup, hst]

/-- Witness for C9 at the spec's own example input. -/
theorem timing_format_behavior_witness :
    format_timings_for_web none = [] ∧
    format_timings_for_web (some []) = [] ∧
    (format_timings_for_web (some [("parse", [("total_ms", (25 : ℚ)/2)])])).lookup "parse" =
      some (.num (msLookup [("parse", [("total_ms", (25 : ℚ)/2)])] "parse")) ∧
    (format_timings_for_web (some [("parse", [("total_ms", (25 : ℚ)/2)])])).lookup "measure" =
      some (.num (msLookup [("parse", [("total_ms", (25 : ℚ)/2)])] "measure_pass")) ∧
    (format_timings_for_web (some [("parse", [("total_ms", (25 : ℚ)/2)])])).lookup "prelayout" =
      some (.num (msLookup [("parse", [("total_ms", (25 : ℚ)/2)])] "pre_layout_pass")) ∧
    (format_timings_for_web (some [("parse", [("total_ms", (25 : ℚ)/2)])])).lookup "layout" =
      some (.num (msLookup [("parse", [("total_ms", (25 : ℚ)/2)])] "layout_pass")) ∧
    (format_timings_for_web (some [("parse", [("total_ms", (25 : ℚ)/2)])])).lookup "postlayout" =
      some (.num (msLookup [("parse", [("total_ms", (25 : ℚ)/2)])] "post_layout_pass")) ∧
    (format_timings_for_web (some [("parse", [("total_ms", (25 : ℚ)/2)])])).lookup "render" =
      some (.num (msLookup [("parse", [("total_ms", (25 : ℚ)/2)])] "render")) ∧
    (format_timings_for_web (some [("parse", [("total_ms", (25 : ℚ)/2)])])).lookup "intersection" =
      some (.num (msLookup [("parse", [("total_ms", (25 : ℚ)/2)])] "intersection_solver")) ∧
    (format_timings_for_web (some [("parse", [("total_ms", (25 : ℚ)/2)])])).lookup "face" =
      some (.num (msLookup [("parse", [("total_ms", (25 : ℚ)/2)])] "face_solver")) ∧
    (format_timings_for_web (some [("parse", [("total_ms", (25 : ℚ)/2)])])).lookup "geometry" =
      some (.num (msLookup [("parse", [("total_ms", (25 : ℚ)/2)])] "geometry_builder")) ∧
    (format_timings_for_web (some [("parse", [("total_ms", (25 : ℚ)/2)])])).lookup "fastmesh" =
      some (.num (msLookup [("parse", [("total_ms", (25 : ℚ)/2)])] "fast_mesh_builder")) ∧
    (format_timings_for_web (some [("parse", [("total_ms", (25 : ℚ)/2)])])).lookup "serialize" =
      some (.num (msLookup [("parse", [("total_ms", (25 : ℚ)/2)])] "serialize")) ∧
    (format_timings_for_web (some [("parse", [("total_ms", (25 : ℚ)/2)])])).lookup "markers" =
      some (.markers [("parse", [("total_ms", (25 : ℚ)/2)])]) ∧
    (∀ stage, ([("parse", [("total_ms", (25 : ℚ)/2)])] : RawTimings).lookup stage = none →
      msLookup [("parse", [("total_ms", (25 : ℚ)/2)])] stage = 0) :=
  timing_format_behavior [("parse", [("total_ms", (25 : ℚ)/2)])] (by simp)

/-! ## C10: non-six-character hex colors fall back to gray -/

/-- C10: an input whose hash-stripped form is not exactly six characters
long is converted to the gray triple (0.5, 0.5, 0.5); consequently a
panel whose element carried such an explicit color is binary-encoded
with gray RGB channels while the JSON engine stores the original color
string unchanged. -/
theorem hex_shorthand_gray (s : ByteStr) (hs : (s.dropWhile (· == 35)).length ≠ 6)
    (e : Element) (c : ByteStr) (hc : e.color = some c) (hcne : c ≠ [])
    (hlen : (c.dropWhile (· == 35)).length ≠ 6)
    (id : ByteStr) (pts : List RawPoint) (gk : Option ByteStr)
    (bst bst' : BinaryRenderEngine.State) (jst jst' : JSONRenderEngine.State)
    (hb : BinaryRenderEngine.create_poly id pts gk (BinaryRenderEngine.pre_render e bst) = .ok bst')
    (hj : JSONRenderEngine.create_poly id pts gk (JSONRenderEngine.pre_render e jst) = .ok jst') :
    hex_to_rgb s = .ok (1/2, 1/2, 1/2) ∧
    (∃ p, bst'.panels = bst.panels ++ [p] ∧ p.color_rgb = (1/2, 1/2, 1/2)) ∧
    (∃ p, jst'.panels = jst.panels ++ [p] ∧ p.color = some c) := by
  have gray : ∀ t : ByteStr, (t.dropWhile (· == 35)).length ≠ 6 →
      hex_to_rgb t = .ok (1/2, 1/2, 1/2) := by
    intro t ht
    simp only [hex_to_rgb]
    rw [if_neg ht]
  have hexp : explicitColor e = some c := by
    simp [explicitColor, hc, List.isEmpty_iff, hcne]
  refine ⟨gray s hs, ?_, ?_⟩
  · have hcol : (BinaryRenderEngine.pre_render e bst).panelData.color = some c := by
      simp [BinaryRenderEngine.pre_render, hexp]
    cases hn : mapEx normPoint pts with
    | error msg =>
      simp [BinaryRenderEngine.create_poly, hn] at hb
    | ok nested =>
      simp only [BinaryRenderEngine.create_poly, hn, exc_bind_ok, hcol, Option.getD_some,
        gray c hlen, Except.ok.injEq] at hb
      subst hb
      exact ⟨_, rfl, rfl⟩
  · have hcol : (JSONRenderEngine.pre_render e jst).panelData.color = some c := by
      simp [JSONRenderEngine.pre_render, hexp]
    cases hn : mapEx normPoint pts with
    | error msg =>
      simp [JSONRenderEngine.create_poly, hn] at hj
    | ok nested =>
      simp only [JSONRenderEngine.create_poly, hn, exc_bind_ok, Except.ok.injEq] at hj
      subst hj
      exact ⟨_, rfl, hcol⟩

/-- Witness for C10 at the shorthand color "#fff". -/
theorem hex_shorthand_gray_witness :
    hex_to_rgb (strBytes "#fff") = .ok (1/2, 1/2, 1/2) ∧
    (∃ p, c10bst.panels = BinaryRenderEngine.init.panels ++ [p] ∧
      p.color_rgb = (1/2, 1/2, 1/2)) ∧
    (∃ p, c10jst.panels = JSONRenderEngine.init.panels ++ [p] ∧
      p.color = some (strBytes "#fff")) :=
  hex_shorthand_gray (strBytes "#fff") (by decide) elemFFF (strBytes "#fff") rfl
    (by decide) (by decide) [] [] none BinaryRenderEngine.init c10bst
    JSONRenderEngine.init c10jst rfl rfl

/-! ## C7: deterministic cyclic palette assignment -/

theorem preFoldJ_colorIndex (es : List Element) (hno : ∀ e ∈ es, explicitColor e = none) :
    ∀ st : JSONRenderEngine.State,
      (preFoldJ es st).colorIndex = st.colorIndex + es.length := by
  induction es with
  | nil => intro st; simp [preFoldJ]
  | cons e t ih =>
    intro st
    have he : explicitColor e = none := hno e (by simp)
    have hstep : preFoldJ (e :: t) st = preFoldJ t (JSONRenderEngine.pre_render e st) := rfl
    rw [hstep, ih (fun x hx => hno x (by simp [hx]))]
    simp [JSONRenderEngine.pre_render, he, JSONRenderEngine.get_next_color]
    omega

theorem preFoldB_colorIndex (es : List Element) (hno : ∀ e ∈ es, explicitColor e = none) :
    ∀ st : BinaryRenderEngine.State,
      (preFoldB es st).colorIndex = st.colorIndex + es.length := by
  induction es with
  | nil => intro st; simp [preFoldB]
  | cons e t ih =>
    intro st
    have he : explicitColor e = none := hno e (by simp)
    have hstep : preFoldB (e :: t) st = preFoldB t (BinaryRenderEngine.pre_render e st) := rfl
    rw [hstep, ih (fun x hx => hno x (by simp [hx]))]
    simp [BinaryRenderEngine.pre_render, he, BinaryRenderEngine.get_next_color]
    omega

/-- C7: the palette has twelve entries and, in each engine, a sequence
of pre_render calls on elements with no explicit (present and
non-empty) color assigns palette entry k mod 12 at the k-th call
(0-indexed); the assignment is a pure function of the call sequence. -/
theorem color_determinism (elems : List Element)
    (hno : ∀ e ∈ elems, explicitColor e = none) (k : Nat) (hk : k < elems.length) :
    colorPalette.length = 12 ∧
    (preFoldJ (elems.take (k + 1)) JSONRenderEngine.init).panelData.color =
      some (colorPalette.getD (k % 12) []) ∧
    (preFoldB (elems.take (k + 1)) BinaryRenderEngine.init).panelData.color =
      some (colorPalette.getD (k % 12) []) := by
  obtain ⟨ek, hek⟩ : ∃ ek, elems.get? k = some ek := by
    rw [List.get?_eq_get hk]
    exact ⟨_, rfl⟩
  have hmem : ek ∈ elems := List.get?_mem hek
  have hek2 : elems[k]? = some ek := by
    rw [← List.get?_eq_getElem?]
    exact hek
  have hsplit : elems.take (k + 1) = elems.take k ++ [ek] := by
    rw [List.take_succ, hek2]
    rfl
  have hnok : ∀ e ∈ elems.take k, explicitColor e = none :=
    fun e he => hno e (List.take_subset k elems he)
  have hlen : (elems.take k).length = k :=
    List.length_take_of_le (le_of_lt hk)
  refine ⟨rfl, ?_, ?_⟩
  · have happ : preFoldJ (elems.take k ++ [ek]) JSONRenderEngine.init =
        JSONRenderEngine.pre_render ek (preFoldJ (elems.take k) JSONRenderEngine.init) := by
      simp [preFoldJ, List.foldl_append]
    have hidx : (preFoldJ (elems.take k) JSONRenderEngine.init).colorIndex = k := by
      rw [preFoldJ_colorIndex _ hnok, hlen]
      simp [JSONRenderEngine.init]
    rw [hsplit, happ]
    simp [JSONRenderEngine.pre_render, hno ek hmem, JSONRenderEngine.get_next_color, hidx,
      show colorPalette.length = 12 from rfl]
  · have happ : preFoldB (elems.take k ++ [ek]) BinaryRenderEngine.init =
        BinaryRenderEngine.pre_render ek (preFoldB (elems.take k) BinaryRenderEngine.init) := by
      simp [preFoldB, List.foldl_append]
    have hidx : (preFoldB (elems.take k) BinaryRenderEngine.init).colorIndex = k := by
      rw [preFoldB_colorIndex _ hnok, hlen]
      simp [BinaryRenderEngine.init]
    rw [hsplit, happ]
    simp [BinaryRenderEngine.pre_render, hno ek hmem, BinaryRenderEngine.get_next_color, hidx,
      show colorPalette.length = 12 from rfl]

/-- Witness for C7: thirteen colorless elements; the thirteenth call
wraps around to palette entry 0. -/
theorem color_determinism_witness :
    colorPalette.length = 12 ∧
    (preFoldJ ((List.replicate 13 elemPlain).take 13) JSONRenderEngine.init).panelData.color =
      some (colorPalette.getD (12 % 12) []) ∧
    (preFoldB ((List.replicate 13 elemPlain).take 13) BinaryRenderEngine.init).panelData.color =
      some (colorPalette.getD (12 % 12) []) :=
  color_determinism (List.replicate 13 elemPlain)
    (by intro e he; rw [List.eq_of_mem_replicate he]; rfl) 12 (by decide)

/-! ## C6: bounding box -/

theorem updMin_some (c x : ℚ) : updMin (some c) x = some (min c x) := by
  show (if x < c then some x else some c) = some (min c x)
  by_cases h : x < c
  · rw [if_pos h, min_eq_right h.le]
  · rw [if_neg h, min_eq_left (not_lt.mp h)]

theorem updMax_some (c x : ℚ) : updMax (some c) x = some (max c x) := by
  show (if x > c then some x else some c) = some (max c x)
  by_cases h : x > c
  · rw [if_pos h, max_eq_right h.le]
  · rw [if_neg h, max_eq_left (not_lt.mp h)]

theorem foldl_updMin (l : List ℚ) : ∀ c : ℚ,
    l.foldl updMin (some c) = some (l.foldl min c) := by
  induction l with
  | nil => intro c; rfl
  | cons x t ih => intro c; rw [List.foldl_cons, updMin_some, ih, List.foldl_cons]

theorem foldl_updMax (l : List ℚ) : ∀ c : ℚ,
    l.foldl updMax (some c) = some (l.foldl max c) := by
  induction l with
  | nil => intro c; rfl
  | cons x t ih => intro c; rw [List.foldl_cons, updMax_some, ih, List.foldl_cons]

theorem bboxFold_aux (nps : List Q3) : ∀ bb : BBox,
    nps.foldl
      (fun bb p =>
        { min_x := updMin bb.min_x p.1, max_x := updMax bb.max_x p.1,
          min_y := updMin bb.min_y p.2.1, max_y := updMax bb.max_y p.2.1,
          min_z := updMin bb.min_z p.2.2, max_z := updMax bb.max_z p.2.2 })
      bb =
    { min_x := (nps.map (fun p => p.1)).foldl updMin bb.min_x,
      max_x := (nps.map (fun p => p.1)).foldl updMax bb.max_x,
      min_y := (nps.map (fun p => p.2.1)).foldl updMin bb.min_y,
      max_y := (nps.map (fun p => p.2.1)).foldl updMax bb.max_y,
      min_z := (nps.map (fun p => p.2.2)).foldl updMin bb.min_z,
      max_z := (nps.map (fun p => p.2.2)).foldl updMax bb.max_z } := by
  induction nps with
  | nil => intro bb; rfl
  | cons p t ih => intro bb; rw [List.foldl_cons]; exact ih _

theorem bboxFold_eq (nps : List Q3) :
    bboxFold nps =
      { min_x := (nps.map (fun p => p.1)).foldl updMin none,
        max_x := (nps.map (fun p => p.1)).foldl updMax none,
        min_y := (nps.map (fun p => p.2.1)).foldl updMin none,
        max_y := (nps.map (fun p => p.2.1)).foldl updMax none,
        min_z := (nps.map (fun p => p.2.2)).foldl updMin none,
        max_z := (nps.map (fun p => p.2.2)).foldl updMax none } :=
  bboxFold_aux nps _

/-- C6: a create_poly call with at least one point yields a panel whose
position (center) is (min+max)/2 and whose size is max-min per axis,
computed over exactly that panel's normalized points; a call with zero
points succeeds and yields center and size (0, 0, 0). -/
theorem bounding_box (st : JSONRenderEngine.State) (id : ByteStr)
    (pts : List RawPoint) (gk : Option ByteStr) (nps : List Q3)
    (st' : JSONRenderEngine.State) (cx cy cz : ℚ) (csx csy csz : List ℚ)
    (hn : mapEx normPoint pts = .ok nps)
    (hc : JSONRenderEngine.create_poly id pts gk st = .ok st')
    (hx : nps.map (fun q => q.1) = cx :: csx)
    (hy : nps.map (fun q => q.2.1) = cy :: csy)
    (hz : nps.map (fun q => q.2.2) = cz :: csz) :
    JSONRenderEngine.create_poly id [] gk st =
      .ok { st with panels := st.panels ++
        [{ id := id, points := [], position := (0, 0, 0), size := (0, 0, 0),
           color := st.panelData.color, geoKey := gk,
           startPoint := st.panelData.startPoint,
           endPoint := st.panelData.endPoint,
           rotation := st.panelData.rotation }] } ∧
    st'.panels = st.panels ++
      [{ id := id, points := nps,
         position := ((csx.foldl min cx + csx.foldl max cx) / 2,
                      (csy.foldl min cy + csy.foldl max cy) / 2,
                      (csz.foldl min cz + csz.foldl max cz) / 2),
         size := (csx.foldl max cx - csx.foldl min cx,
                  csy.foldl max cy - csy.foldl min cy,
                  csz.foldl max cz - csz.foldl min cz),
         color := st.panelData.color, geoKey := gk,
         startPoint := st.panelData.startPoint,
         endPoint := st.panelData.endPoint,
         rotation := st.panelData.rotation }] := by
  refine ⟨rfl, ?_⟩
  simp only [JSONRenderEngine.create_poly, hn, exc_bind_ok, Except.ok.injEq] at hc
  subst hc
  have hne : nps.isEmpty = false := by
    cases nps with
    | nil => simp at hx
    | cons q t => rfl
  simp only [bboxFold_eq, hx, hy, hz, hne, Bool.false_eq_true, if_false, List.foldl_cons]
  simp only [show ∀ c : ℚ, updMin none c = some c from fun _ => rfl,
    show ∀ c : ℚ, updMax none c = some c from fun _ => rfl,
    foldl_updMin, foldl_updMax, Option.getD_some]

/-- Witness for C6 on a single normalized point (1, 2, 0). -/
theorem bounding_box_witness :
    JSONRenderEngine.create_poly [] [] none JSONRenderEngine.init =
      .ok { JSONRenderEngine.init with panels := JSONRenderEngine.init.panels ++
        [{ id := [], points := [], position := (0, 0, 0), size := (0, 0, 0),
           color := JSONRenderEngine.init.panelData.color, geoKey := none,
           startPoint := JSONRenderEngine.init.panelData.startPoint,
           endPoint := JSONRenderEngine.init.panelData.endPoint,
           rotation := JSONRenderEngine.init.panelData.rotation }] } ∧
    c6st.panels = JSONRenderEngine.init.panels ++
      [{ id := [], points := [((1 : ℚ), (2 : ℚ), (0 : ℚ))],
         position := ((([] : List ℚ).foldl min 1 + ([] : List ℚ).foldl max 1) / 2,
                      (([] : List ℚ).foldl min 2 + ([] : List ℚ).foldl max 2) / 2,
                      (([] : List ℚ).foldl min 0 + ([] : List ℚ).foldl max 0) / 2),
         size := (([] : List ℚ).foldl max 1 - ([] : List ℚ).foldl min 1,
                  ([] : List ℚ).foldl max 2 - ([] : List ℚ).foldl min 2,
                  ([] : List ℚ).foldl max 0 - ([] : List ℚ).foldl min 0),
         color := JSONRenderEngine.init.panelData.color, geoKey := none,
         startPoint := JSONRenderEngine.init.panelData.startPoint,
         endPoint := JSONRenderEngine.init.panelData.endPoint,
         rotation := JSONRenderEngine.init.panelData.rotation }] :=
  bounding_box JSONRenderEngine.init [] [.seq [1, 2]] none [((1 : ℚ), (2 : ℚ), (0 : ℚ))]
    c6st 1 2 0 [] [] [] rfl rfl rfl rfl rfl

/-! ## C2: oversized identifiers -/

theorem panelHeaderCells_ok {p : BinaryRenderEngine.Panel} {hd : List Cell}
    (h : BinaryRenderEngine.panelHeaderCells p = .ok hd) :
    p.id.length ≤ 65535 ∧ p.vertices_flat.length / 3 ≤ 65535 ∧
    hd = [.byte (p.id.length % 256), .byte (p.id.length / 256 % 256),
          .byte (p.vertices_flat.length / 3 % 256),
          .byte (p.vertices_flat.length / 3 / 256 % 256),
          .f32 p.color_rgb.1, .f32 p.color_rgb.2.1, .f32 p.color_rgb.2.2,
          .byte (BinaryRenderEngine.hasEndpointsFlag p), .byte 0, .byte 0, .byte 0] := by
  cases h1 : packU16 p.id.length with
  | error e => simp [BinaryRenderEngine.panelHeaderCells, h1] at h
  | ok il =>
    cases h2 : packU16 (p.vertices_flat.length / 3) with
    | error e => simp [BinaryRenderEngine.panelHeaderCells, h1, h2] at h
    | ok vc =>
      obtain ⟨hb1, rfl⟩ := packU16_ok h1
      obtain ⟨hb2, rfl⟩ := packU16_ok h2
      simp only [BinaryRenderEngine.panelHeaderCells, h1, h2, exc_bind_ok,
        Except.ok.injEq] at h
      refine ⟨hb1, hb2, ?_⟩
      rw [← h]
      rfl

theorem packPanel_ok {p : BinaryRenderEngine.Panel} {cells : List Cell}
    (h : BinaryRenderEngine.packPanel p = .ok cells) :
    ∃ hd, BinaryRenderEngine.panelHeaderCells p = .ok hd ∧
      cells = hd ++ BinaryRenderEngine.endpointCells p ++ BinaryRenderEngine.idCells p ++
        BinaryRenderEngine.padCells p ++ BinaryRenderEngine.vertexCells p := by
  cases h1 : BinaryRenderEngine.panelHeaderCells p with
  | error e => simp [BinaryRenderEngine.packPanel, h1] at h
  | ok hd =>
    simp only [BinaryRenderEngine.packPanel, h1, exc_bind_ok, Except.ok.injEq] at h
    exact ⟨hd, rfl, h.symm⟩

theorem to_bytes_ok_parts {st : BinaryRenderEngine.State} {buf : List Cell}
    (h : BinaryRenderEngine.to_bytes st = .ok buf) :
    ∃ hd bodies, BinaryRenderEngine.headerCells st = .ok hd ∧
      mapEx BinaryRenderEngine.packPanel st.panels = .ok bodies ∧
      buf = hd ++ bodies.flatten := by
  cases h1 : BinaryRenderEngine.headerCells st with
  | error e => simp [BinaryRenderEngine.to_bytes, h1] at h
  | ok hd =>
    cases h2 : mapEx BinaryRenderEngine.packPanel st.panels with
    | error e => simp [BinaryRenderEngine.to_bytes, h1, h2] at h
    | ok bodies =>
      simp only [BinaryRenderEngine.to_bytes, h1, h2, exc_bind_ok, Except.ok.injEq] at h
      exact ⟨hd, bodies, rfl, rfl, h.symm⟩

theorem to_bytes_ok_id_bound {st : BinaryRenderEngine.State} {buf : List Cell}
    (h : BinaryRenderEngine.to_bytes st = .ok buf) :
    ∀ p ∈ st.panels, p.id.length ≤ 65535 := by
  intro p hp
  obtain ⟨hd, bodies, _, hmap, _⟩ := to_bytes_ok_parts h
  obtain ⟨cells, hcells⟩ := mapEx_ok_mem hmap p hp
  obtain ⟨phd, hphd, _⟩ := packPanel_ok hcells
  exact (panelHeaderCells_ok hphd).1

/-- C2 (amended): binary-encoding an accumulator containing a panel
whose id exceeds 65535 bytes fails with a struct packing error and
produces no buffer at all; the id is neither truncated nor wrapped.
(The error is the fixed struct.error message, which does not identify
the offending panel or id — see the counterexample.) -/
theorem oversized_id_rejected (st : BinaryRenderEngine.State)
    (p : BinaryRenderEngine.Panel) (hp : p ∈ st.panels) (hlen : 65535 < p.id.length) :
    ∃ msg, BinaryRenderEngine.to_bytes st = .error msg ∧
      ∀ buf, BinaryRenderEngine.to_bytes st ≠ .ok buf := by
  cases hr : BinaryRenderEngine.to_bytes st with
  | error e => exact ⟨e, rfl, fun buf hb => Except.noConfusion hb⟩
  | ok buf => exact absurd (to_bytes_ok_id_bound hr p hp) (by omega)

/-- C2 counterexample: two accumulators that differ only in the bytes
of their oversized ids fail with byte-for-byte the same error value, so
the error identifies neither the offending panel nor the offending id,
contrary to the claim. -/
theorem oversized_id_error_not_identifying :
    BinaryRenderEngine.to_bytes oversizedStA =
      .error "struct.error: H format requires 0 <= number <= 65535" ∧
    BinaryRenderEngine.to_bytes oversizedStB =
      .error "struct.error: H format requires 0 <= number <= 65535" ∧
    BinaryRenderEngine.to_bytes oversizedStA = BinaryRenderEngine.to_bytes oversizedStB ∧
    oversizedStA.panels ≠ oversizedStB.panels := by
  have hlenA : oversizedPanelA.id.length = 65536 := by
    show (List.replicate 65536 (97 : ℕ)).length = 65536
    rw [List.length_replicate]
  have hlenB : oversizedPanelB.id.length = 65536 := by
    show (List.replicate 65536 (98 : ℕ)).length = 65536
    rw [List.length_replicate]
  have hpkA : packU16 oversizedPanelA.id.length =
      .error "struct.error: H format requires 0 <= number <= 65535" := by
    rw [hlenA]; rfl
  have hpkB : packU16 oversizedPanelB.id.length =
      .error "struct.error: H format requires 0 <= number <= 65535" := by
    rw [hlenB]; rfl
  have hphA : BinaryRenderEngine.panelHeaderCells oversizedPanelA =
      .error "struct.error: H format requires 0 <= number <= 65535" := by
    simp only [BinaryRenderEngine.panelHeaderCells, hpkA, exc_bind_error]
  have hphB : BinaryRenderEngine.panelHeaderCells oversizedPanelB =
      .error "struct.error: H format requires 0 <= number <= 65535" := by
    simp only [BinaryRenderEngine.panelHeaderCells, hpkB, exc_bind_error]
  have hA : BinaryRenderEngine.to_bytes oversizedStA =
      .error "struct.error: H format requires 0 <= number <= 65535" := by
    simp only [BinaryRenderEngine.to_bytes, BinaryRenderEngine.packPanel,
      show BinaryRenderEngine.headerCells oversizedStA =
        .ok (BinaryRenderEngine.magicCells ++
          [Cell.byte 2, Cell.byte 0, Cell.byte 0, Cell.byte 0] ++
          [Cell.byte 1, Cell.byte 0, Cell.byte 0, Cell.byte 0] ++
          [Cell.byte 0, Cell.byte 0, Cell.byte 0, Cell.byte 0]) from rfl,
      exc_bind_ok,
      show oversizedStA.panels = [oversizedPanelA] from rfl,
      mapEx, hphA, exc_bind_error]
  have hB : BinaryRenderEngine.to_bytes oversizedStB =
      .error "struct.error: H format requires 0 <= number <= 65535" := by
    simp only [BinaryRenderEngine.to_bytes, BinaryRenderEngine.packPanel,
      show BinaryRenderEngine.headerCells oversizedStB =
        .ok (BinaryRenderEngine.magicCells ++
          [Cell.byte 2, Cell.byte 0, Cell.byte 0, Cell.byte 0] ++
          [Cell.byte 1, Cell.byte 0, Cell.byte 0, Cell.byte 0] ++
          [Cell.byte 0, Cell.byte 0, Cell.byte 0, Cell.byte 0]) from rfl,
      exc_bind_ok,
      show oversizedStB.panels = [oversizedPanelB] from rfl,
      mapEx, hphB, exc_bind_error]
  refine ⟨hA, hB, by rw [hA, hB], ?_⟩
  intro h
  have h2 : some (97 : ℕ) = some 98 :=
    congrArg (fun l : List BinaryRenderEngine.Panel => (l.headD oversizedPanelA).id.head?) h
  simp at h2

/-- Witness for C2's amended theorem at the concrete oversized state. -/
theorem oversized_id_rejected_witness :
    ∃ msg, BinaryRenderEngine.to_bytes oversizedStA = .error msg ∧
      ∀ buf, BinaryRenderEngine.to_bytes oversizedStA ≠ .ok buf :=
  oversized_id_rejected oversizedStA oversizedPanelA (List.mem_cons_self _ _)
    (by show (65535 : ℕ) < (List.replicate 65536 (97 : ℕ)).length
        rw [List.length_replicate]
        decide)

/-! ## C3: alignment of the vertex arrays -/

theorem bytesOf_append (a b : List Cell) : bytesOf (a ++ b) = bytesOf a + bytesOf b := by
  simp [bytesOf]

theorem bytesOf_map_byte (l : List Nat) : bytesOf (l.map Cell.byte) = l.length := by
  induction l with
  | nil => rfl
  | cons x t ih =>
    simp only [List.map_cons, bytesOf, List.sum_cons, cellBytes, List.length_cons] at *
    omega

theorem bytesOf_map_f32 (l : List ℚ) : bytesOf (l.map Cell.f32) = 4 * l.length := by
  induction l with
  | nil => rfl
  | cons x t ih =>
    simp only [List.map_cons, bytesOf, List.sum_cons, cellBytes, List.length_cons] at *
    omega

theorem bytesOf_endpointCells (p : BinaryRenderEngine.Panel) :
    bytesOf (BinaryRenderEngine.endpointCells p) =
      if p.startPoint.isSome && p.endPoint.isSome then 24 else 0 := by
  cases hs : p.startPoint <;> cases he : p.endPoint <;>
    simp [BinaryRenderEngine.endpointCells, hs, he, bytesOf, cellBytes]

theorem bytesOf_idCells (p : BinaryRenderEngine.Panel) :
    bytesOf (BinaryRenderEngine.idCells p) = p.id.length :=
  bytesOf_map_byte p.id

theorem bytesOf_padCells (p : BinaryRenderEngine.Panel) :
    bytesOf (BinaryRenderEngine.padCells p) = (4 - p.id.length % 4) % 4 := by
  rw [BinaryRenderEngine.padCells, bytesOf_map_byte, List.length_replicate]

theorem bytesOf_vertexCells (p : BinaryRenderEngine.Panel) :
    bytesOf (BinaryRenderEngine.vertexCells p) = 4 * p.vertices_flat.length :=
  bytesOf_map_f32 p.vertices_flat

theorem bytesOf_packPanel {p : BinaryRenderEngine.Panel} {cells : List Cell}
    (h : BinaryRenderEngine.packPanel p = .ok cells) : bytesOf cells % 4 = 0 := by
  obtain ⟨hd, hph, rfl⟩ := packPanel_ok h
  obtain ⟨_, _, rfl⟩ := panelHeaderCells_ok hph
  rw [bytesOf_append, bytesOf_append, bytesOf_append, bytesOf_append]
  rw [show bytesOf [Cell.byte (p.id.length % 256), Cell.byte (p.id.length / 256 % 256),
        Cell.byte (p.vertices_flat.length / 3 % 256),
        Cell.byte (p.vertices_flat.length / 3 / 256 % 256),
        Cell.f32 p.color_rgb.1, Cell.f32 p.color_rgb.2.1, Cell.f32 p.color_rgb.2.2,
        Cell.byte (BinaryRenderEngine.hasEndpointsFlag p),
        Cell.byte 0, Cell.byte 0, Cell.byte 0] = 20 from rfl]
  rw [bytesOf_endpointCells, bytesOf_idCells, bytesOf_padCells, bytesOf_vertexCells]
  by_cases hf : p.startPoint.isSome && p.endPoint.isSome
  · rw [if_pos hf]; omega
  · rw [if_neg hf]; omega

theorem packPanels_decompose :
    ∀ (ps : List BinaryRenderEngine.Panel) (bodies : List (List Cell)),
      mapEx BinaryRenderEngine.packPanel ps = .ok bodies →
      ∀ (i : Nat) (p : BinaryRenderEngine.Panel), ps.get? i = some p →
        ∃ front rest, bodies.flatten =
            front ++ (BinaryRenderEngine.idCells p ++ BinaryRenderEngine.padCells p) ++
              BinaryRenderEngine.vertexCells p ++ rest ∧
          bytesOf front % 4 = 0 := by
  intro ps
  induction ps with
  | nil => intro bodies h i p hp; simp at hp
  | cons q qs ih =>
    intro bodies h i p hp
    obtain ⟨c, cs, hq, hqs, rfl⟩ := mapEx_ok_cons h
    cases i with
    | zero =>
      rw [List.get?_cons_zero, Option.some.injEq] at hp
      subst hp
      obtain ⟨hd, hph, rfl⟩ := packPanel_ok hq
      obtain ⟨_, _, rfl⟩ := panelHeaderCells_ok hph
      refine ⟨[Cell.byte (q.id.length % 256), Cell.byte (q.id.length / 256 % 256),
          Cell.byte (q.vertices_flat.length / 3 % 256),
          Cell.byte (q.vertices_flat.length / 3 / 256 % 256),
          Cell.f32 q.color_rgb.1, Cell.f32 q.color_rgb.2.1, Cell.f32 q.color_rgb.2.2,
          Cell.byte (BinaryRenderEngine.hasEndpointsFlag q),
          Cell.byte 0, Cell.byte 0, Cell.byte 0] ++ BinaryRenderEngine.endpointCells q,
        cs.flatten, ?_, ?_⟩
      · rw [List.flatten_cons]
        simp [List.append_assoc]
      · rw [bytesOf_append]
        rw [show bytesOf [Cell.byte (q.id.length % 256), Cell.byte (q.id.length / 256 % 256),
              Cell.byte (q.vertices_flat.length / 3 % 256),
              Cell.byte (q.vertices_flat.length / 3 / 256 % 256),
              Cell.f32 q.color_rgb.1, Cell.f32 q.color_rgb.2.1, Cell.f32 q.color_rgb.2.2,
              Cell.byte (BinaryRenderEngine.hasEndpointsFlag q),
              Cell.byte 0, Cell.byte 0, Cell.byte 0] = 20 from rfl]
        rw [bytesOf_endpointCells]
        by_cases hf : q.startPoint.isSome && q.endPoint.isSome
        · rw [if_pos hf]
        · rw [if_neg hf]
    | succ j =>
      rw [List.get?_cons_succ] at hp
      obtain ⟨front, rest, hflat, hdiv⟩ := ih cs hqs j p hp
      refine ⟨c ++ front, rest, ?_, ?_⟩
      · rw [List.flatten_cons, hflat]
        simp [List.append_assoc]
      · rw [bytesOf_append]
        have := bytesOf_packPanel hq
        omega

theorem headerCells_bytes {st : BinaryRenderEngine.State} {hd : List Cell}
    (h : BinaryRenderEngine.headerCells st = .ok hd) : bytesOf hd = 16 := by
  cases h1 : packU32 2 with
  | error e => simp [BinaryRenderEngine.headerCells, h1] at h
  | ok v =>
    cases h2 : packU32 st.panels.length with
    | error e => simp [BinaryRenderEngine.headerCells, h1, h2] at h
    | ok pc =>
      cases h3 : packU32 (BinaryRenderEngine.totalVertices st) with
      | error e => simp [BinaryRenderEngine.headerCells, h1, h2, h3] at h
      | ok tv =>
        obtain ⟨_, rfl⟩ := packU32_ok h1
        obtain ⟨_, rfl⟩ := packU32_ok h2
        obtain ⟨_, rfl⟩ := packU32_ok h3
        simp only [BinaryRenderEngine.headerCells, h1, h2, h3, exc_bind_ok,
          Except.ok.injEq] at h
        rw [← h]
        rfl

/-- C3: in every buffer produced by to_bytes, each panel's float32
vertex array begins right after the panel's id bytes and its
(4 - idLength mod 4) mod 4 zero-byte padding, at a byte offset that is
a multiple of 4. -/
theorem vertex_array_alignment (st : BinaryRenderEngine.State) (buf : List Cell)
    (henc : BinaryRenderEngine.to_bytes st = .ok buf)
    (i : Nat) (p : BinaryRenderEngine.Panel) (hp : st.panels.get? i = some p) :
    BinaryRenderEngine.padCells p =
      (List.replicate ((4 - p.id.length % 4) % 4) 0).map Cell.byte ∧
    ∃ front rest,
      buf = (front ++ (BinaryRenderEngine.idCells p ++ BinaryRenderEngine.padCells p)) ++
        BinaryRenderEngine.vertexCells p ++ rest ∧
      bytesOf (front ++ (BinaryRenderEngine.idCells p ++ BinaryRenderEngine.padCells p)) % 4
        = 0 := by
  refine ⟨rfl, ?_⟩
  obtain ⟨hd, bodies, hh, hmap, rfl⟩ := to_bytes_ok_parts henc
  obtain ⟨front, rest, hflat, hdiv⟩ := packPanels_decompose st.panels bodies hmap i p hp
  refine ⟨hd ++ front, rest, ?_, ?_⟩
  · rw [hflat]
    simp [List.append_assoc]
  · rw [bytesOf_append, bytesOf_append, bytesOf_append, headerCells_bytes hh,
      bytesOf_idCells, bytesOf_padCells]
    omega

/-- Witness for C3 at a one-panel accumulator. -/
theorem vertex_array_alignment_witness :
    BinaryRenderEngine.padCells c3panel =
      (List.replicate ((4 - c3panel.id.length % 4) % 4) 0).map Cell.byte ∧
    ∃ front rest,
      c3buf = (front ++ (BinaryRenderEngine.idCells c3panel ++
          BinaryRenderEngine.padCells c3panel)) ++
        BinaryRenderEngine.vertexCells c3panel ++ rest ∧
      bytesOf (front ++ (BinaryRenderEngine.idCells c3panel ++
          BinaryRenderEngine.padCells c3panel)) % 4 = 0 :=
  vertex_array_alignment c3st c3buf rfl 0 c3panel rfl

/-! ## C4: the hasEndpoints flag -/

/-- C4: in a panel's serialized section the hasEndpoints byte sits at
byte offset 16 and equals 1 exactly when both startPoint and endPoint
were recorded; the 24 endpoint bytes are present exactly when the flag
is 1; and a panel from an element without the transform capability is
recorded with no endpoints, hence flag 0 and zero endpoint bytes. -/
theorem has_endpoints_encoding
    (p : BinaryRenderEngine.Panel) (cells : List Cell)
    (hpk : BinaryRenderEngine.packPanel p = .ok cells)
    (e : Element) (st st' : BinaryRenderEngine.State)
    (id : ByteStr) (pts : List RawPoint) (gk : Option ByteStr)
    (hnotp : e.transform_point = none)
    (hcp : BinaryRenderEngine.create_poly id pts gk
      (BinaryRenderEngine.pre_render e st) = .ok st') :
    cells.get? 7 = some (.byte (BinaryRenderEngine.hasEndpointsFlag p)) ∧
    bytesOf (cells.take 7) = 16 ∧
    (BinaryRenderEngine.hasEndpointsFlag p = 1 ↔
      p.startPoint.isSome = true ∧ p.endPoint.isSome = true) ∧
    bytesOf (BinaryRenderEngine.endpointCells p) =
      (if p.startPoint.isSome && p.endPoint.isSome then 24 else 0) ∧
    (∃ q, st'.panels = st.panels ++ [q] ∧ q.startPoint = none ∧ q.endPoint = none ∧
      BinaryRenderEngine.hasEndpointsFlag q = 0 ∧
      BinaryRenderEngine.endpointCells q = []) := by
  obtain ⟨hd, hph, rfl⟩ := packPanel_ok hpk
  obtain ⟨_, _, rfl⟩ := panelHeaderCells_ok hph
  have hassoc :
      [Cell.byte (p.id.length % 256), Cell.byte (p.id.length / 256 % 256),
        Cell.byte (p.vertices_flat.length / 3 % 256),
        Cell.byte (p.vertices_flat.length / 3 / 256 % 256),
        Cell.f32 p.color_rgb.1, Cell.f32 p.color_rgb.2.1, Cell.f32 p.color_rgb.2.2,
        Cell.byte (BinaryRenderEngine.hasEndpointsFlag p),
        Cell.byte 0, Cell.byte 0, Cell.byte 0] ++
        BinaryRenderEngine.endpointCells p ++ BinaryRenderEngine.idCells p ++
        BinaryRenderEngine.padCells p ++ BinaryRenderEngine.vertexCells p =
      [Cell.byte (p.id.length % 256), Cell.byte (p.id.length / 256 % 256),
        Cell.byte (p.vertices_flat.length / 3 % 256),
        Cell.byte (p.vertices_flat.length / 3 / 256 % 256),
        Cell.f32 p.color_rgb.1, Cell.f32 p.color_rgb.2.1, Cell.f32 p.color_rgb.2.2,
        Cell.byte (BinaryRenderEngine.hasEndpointsFlag p),
        Cell.byte 0, Cell.byte 0, Cell.byte 0] ++
        (BinaryRenderEngine.endpointCells p ++ (BinaryRenderEngine.idCells p ++
          (BinaryRenderEngine.padCells p ++ BinaryRenderEngine.vertexCells p))) := by
    simp [List.append_assoc]
  rw [hassoc]
  refine ⟨?_, ?_, ?_, bytesOf_endpointCells p, ?_⟩
  · rw [List.get?_eq_getElem?, List.getElem?_append_left (by simp)]
    rfl
  · rw [List.take_append_of_le_length (by simp)]
    rfl
  · cases hs : p.startPoint.isSome <;> cases he : p.endPoint.isSome <;>
      simp [BinaryRenderEngine.hasEndpointsFlag, hs, he]
  · have hpre : (BinaryRenderEngine.pre_render e st).panelData.startPoint = none ∧
        (BinaryRenderEngine.pre_render e st).panelData.endPoint = none := by
      constructor <;> simp [BinaryRenderEngine.pre_render, endpointComputeB, hnotp]
    cases hn : mapEx normPoint pts with
    | error msg => simp [BinaryRenderEngine.create_poly, hn] at hcp
    | ok nested =>
      cases hx : hex_to_rgb ((BinaryRenderEngine.pre_render e st).panelData.color.getD
          (strBytes "#888888")) with
      | error msg => simp [BinaryRenderEngine.create_poly, hn, hx] at hcp
      | ok rgb =>
        simp only [BinaryRenderEngine.create_poly, hn, hx, exc_bind_ok,
          Except.ok.injEq] at hcp
        subst hcp
        refine ⟨_, rfl, hpre.1, hpre.2, ?_, ?_⟩
        · simp [BinaryRenderEngine.hasEndpointsFlag, hpre.1, hpre.2]
        · simp [BinaryRenderEngine.endpointCells, hpre.1, hpre.2]

/-- Witness for C4 on a panel without endpoints, produced through an
element lacking the transform capability. -/
theorem has_endpoints_encoding_witness :
    c4cells.get? 7 = some (.byte (BinaryRenderEngine.hasEndpointsFlag c3panel)) ∧
    bytesOf (c4cells.take 7) = 16 ∧
    (BinaryRenderEngine.hasEndpointsFlag c3panel = 1 ↔
      c3panel.startPoint.isSome = true ∧ c3panel.endPoint.isSome = true) ∧
    bytesOf (BinaryRenderEngine.endpointCells c3panel) =
      (if c3panel.startPoint.isSome && c3panel.endPoint.isSome then 24 else 0) ∧
    (∃ q, c4st.panels = BinaryRenderEngine.init.panels ++ [q] ∧
      q.startPoint = none ∧ q.endPoint = none ∧
      BinaryRenderEngine.hasEndpointsFlag q = 0 ∧
      BinaryRenderEngine.endpointCells q = []) :=
  has_endpoints_encoding c3panel c4cells rfl elemPlain BinaryRenderEngine.init c4st
    [] [] none rfl rfl

/-! ## C8: failures of the optional endpoint computation -/

theorem endpointComputeJ_endPoint_some (e : Element) :
    (endpointComputeJ e).endPoint.isSome = true →
    (endpointComputeJ e).startPoint.isSome = true := by
  cases htp : e.transform_point with
  | none => simp [endpointComputeJ, htp]
  | some tp =>
    cases h1 : tp startQuery with
    | error u => simp [endpointComputeJ, htp, h1]
    | ok s =>
      cases h2 : tp endQuery with
      | error u => simp [endpointComputeJ, htp, h1, h2]
      | ok en =>
        cases h3 : convSeq s with
        | none => simp [endpointComputeJ, htp, h1, h2, h3]
        | some sp =>
          cases h4 : convSeq en with
          | none => simp [endpointComputeJ, htp, h1, h2, h3, h4]
          | some ep =>
            cases h5 : e.rotation with
            | none => simp [endpointComputeJ, htp, h1, h2, h3, h4, h5]
            | some r =>
              cases h6 : convRot r with
              | none => simp [endpointComputeJ, htp, h1, h2, h3, h4, h5, h6]
              | some rot => simp [endpointComputeJ, htp, h1, h2, h3, h4, h5, h6]

/-- C8 counterexample: pre_render on elemPartial hits an exception
while converting the end point — the transform returned the empty
sequence there, so indexing it raises — yet the subsequently emitted
panel carries startPoint = (1, 2, 0) with endPoint absent, contradicting
the claim that panels are then emitted with both endpoints absent. -/
theorem endpoint_partial_failure_counterexample :
    (endpointComputeJ elemPartial).startPoint = some (1, 2, 0) ∧
    (endpointComputeJ elemPartial).endPoint = none ∧
    JSONRenderEngine.create_poly [] [] none
      (JSONRenderEngine.pre_render elemPartial JSONRenderEngine.init) = .ok c8st ∧
    c8st.panels.map (fun p => (p.startPoint, p.endPoint)) = [(some (1, 2, 0), none)] :=
  ⟨rfl, rfl, rfl, rfl⟩

/-- C8 (amended): pre_render never fails; when the transform capability
itself raises — on either of the two calls — the panels subsequently
emitted by both engines have both startPoint and endPoint absent, and in
general an emitted endPoint implies an emitted startPoint; but when the
failure occurs while converting the already-computed end point the
startPoint may survive alone (see the counterexample). -/
theorem endpoint_failure_amended (e : Element) (tp : Q3 → Except Unit (List ℚ))
    (htp : e.transform_point = some tp)
    (hfail : tp startQuery = .error () ∨ tp endQuery = .error ())
    (st st' : JSONRenderEngine.State) (bst bst' : BinaryRenderEngine.State)
    (id : ByteStr) (pts : List RawPoint) (gk : Option ByteStr)
    (hj : JSONRenderEngine.create_poly id pts gk
      (JSONRenderEngine.pre_render e st) = .ok st')
    (hb : BinaryRenderEngine.create_poly id pts gk
      (BinaryRenderEngine.pre_render e bst) = .ok bst') :
    (endpointComputeJ e).startPoint = none ∧
    (endpointComputeJ e).endPoint = none ∧
    endpointComputeB e = (none, none) ∧
    (∃ p, st'.panels = st.panels ++ [p] ∧ p.startPoint = none ∧ p.endPoint = none) ∧
    (∃ p, bst'.panels = bst.panels ++ [p] ∧ p.startPoint = none ∧ p.endPoint = none) ∧
    (∀ e' : Element, (endpointComputeJ e').endPoint.isSome = true →
      (endpointComputeJ e').startPoint.isSome = true) := by
  have hJ : endpointComputeJ e = ⟨none, none, none⟩ := by
    rcases hfail with h | h
    · simp [endpointComputeJ, htp, h]
    · cases h1 : tp startQuery with
      | error u => simp [endpointComputeJ, htp, h1]
      | ok s => simp [endpointComputeJ, htp, h1, h]
  have hBc : endpointComputeB e = (none, none) := by
    rcases hfail with h | h
    · simp [endpointComputeB, htp, h]
    · cases h1 : tp startQuery with
      | error u => simp [endpointComputeB, htp, h1]
      | ok s => simp [endpointComputeB, htp, h1, h]
  refine ⟨by rw [hJ], by rw [hJ], hBc, ?_, ?_, endpointComputeJ_endPoint_some⟩
  · cases hn : mapEx normPoint pts with
    | error msg => simp [JSONRenderEngine.create_poly, hn] at hj
    | ok nested =>
      simp only [JSONRenderEngine.create_poly, hn, exc_bind_ok, Except.ok.injEq] at hj
      subst hj
      exact ⟨_, rfl, by simp [JSONRenderEngine.pre_render, hJ],
        by simp [JSONRenderEngine.pre_render, hJ]⟩
  · cases hn : mapEx normPoint pts with
    | error msg => simp [BinaryRenderEngine.create_poly, hn] at hb
    | ok nested =>
      cases hx : hex_to_rgb ((BinaryRenderEngine.pre_render e bst).panelData.color.getD
          (strBytes "#888888")) with
      | error msg => simp [BinaryRenderEngine.create_poly, hn, hx] at hb
      | ok rgb =>
        simp only [BinaryRenderEngine.create_poly, hn, hx, exc_bind_ok,
          Except.ok.injEq] at hb
        subst hb
        exact ⟨_, rfl, by simp [BinaryRenderEngine.pre_render, hBc],
          by simp [BinaryRenderEngine.pre_render, hBc]⟩

/-- Witness for C8's amended theorem on an always-raising transform. -/
theorem endpoint_failure_amended_witness :
    (endpointComputeJ elemRaise).startPoint = none ∧
    (endpointComputeJ elemRaise).endPoint = none ∧
    endpointComputeB elemRaise = (none, none) ∧
    (∃ p, c8jst.panels = JSONRenderEngine.init.panels ++ [p] ∧
      p.startPoint = none ∧ p.endPoint = none) ∧
    (∃ p, c8bst.panels = BinaryRenderEngine.init.panels ++ [p] ∧
      p.startPoint = none ∧ p.endPoint = none) ∧
    (∀ e' : Element, (endpointComputeJ e').endPoint.isSome = true →
      (endpointComputeJ e').startPoint.isSome = true) :=
  endpoint_failure_amended elemRaise (fun _ => .error ()) rfl (.inl rfl)
    JSONRenderEngine.init c8jst BinaryRenderEngine.init c8bst [] [] none rfl rfl

/-! ## C1: decoding a produced buffer -/

@[simp]
theorem opt_bind_some {α β : Type} (a : α) (f : α → Option β) :
    (some a >>= f) = f a := rfl

@[simp]
theorem opt_bind_none {α β : Type} (f : α → Option β) :
    ((none : Option α) >>= f) = none := rfl

theorem readByte_cons (b : Nat) (cs : List Cell) :
    Decoder.readByte (.byte b :: cs) = some (b, cs) := rfl

theorem readF32_cons (q : ℚ) (cs : List Cell) :
    Decoder.readF32 (.f32 q :: cs) = some (q, cs) := rfl

theorem readU16_pack (n : Nat) (hn : n ≤ 65535) (cs : List Cell) :
    Decoder.readU16 (.byte (n % 256) :: .byte (n / 256 % 256) :: cs) = some (n, cs) := by
  have harith : n % 256 + 256 * (n / 256 % 256) = n := by omega
  simp [Decoder.readU16, Decoder.readByte, harith]

theorem readU32_pack (n : Nat) (hn : n ≤ 4294967295) (cs : List Cell) :
    Decoder.readU32 (.byte (n % 256) :: .byte (n / 256 % 256) ::
      .byte (n / 65536 % 256) :: .byte (n / 16777216 % 256) :: cs) = some (n, cs) := by
  have harith : n % 256 + 256 * (n / 256 % 256) + 65536 * (n / 65536 % 256) +
      16777216 * (n / 16777216 % 256) = n := by omega
  simp [Decoder.readU32, Decoder.readByte, harith]

theorem readBytesN_map : ∀ (l : List Nat) (cs : List Cell),
    Decoder.readBytesN l.length (l.map Cell.byte ++ cs) = some (l, cs) := by
  intro l
  induction l with
  | nil => intro cs; rfl
  | cons b t ih =>
    intro cs
    simp [List.length_cons, Decoder.readBytesN, Decoder.readByte, ih]

theorem readBytes3_zeros (cs : List Cell) :
    Decoder.readBytesN 3 (.byte 0 :: .byte 0 :: .byte 0 :: cs) = some ([0, 0, 0], cs) := rfl

theorem readBytesN_replicate_zero (k : Nat) (cs : List Cell) :
    Decoder.readBytesN k ((List.replicate k 0).map Cell.byte ++ cs) =
      some (List.replicate k 0, cs) := by
  have h := readBytesN_map (List.replicate k 0) cs
  rwa [List.length_replicate] at h

theorem readPt_cons (x y z : ℚ) (cs : List Cell) :
    Decoder.readPt (.f32 x :: .f32 y :: .f32 z :: cs) = some ((x, y, z), cs) := rfl

theorem readPts_flatten : ∀ (n : Nat) (flat : List ℚ) (cs : List Cell),
    flat.length = 3 * n →
    Decoder.readPts n (flat.map Cell.f32 ++ cs) = some (chunk3 flat, cs) := by
  intro n
  induction n with
  | zero =>
    intro flat cs h
    have hnil : flat = [] := List.eq_nil_of_length_eq_zero (by omega)
    subst hnil
    rfl
  | succ m ih =>
    intro flat cs h
    rcases flat with _ | ⟨x, _ | ⟨y, _ | ⟨z, t⟩⟩⟩
    · simp at h
    · simp at h; omega
    · simp at h; omega
    · have ht : t.length = 3 * m := by
        simp [List.length_cons] at h
        omega
      simp only [List.map_cons, List.cons_append]
      rw [show chunk3 (x :: y :: z :: t) = (x, y, z) :: chunk3 t from rfl]
      simp [Decoder.readPts, Decoder.readPt, Decoder.readF32, ih t cs ht]

theorem decodePanel_packPanel {p : BinaryRenderEngine.Panel} {cells : List Cell}
    (h : BinaryRenderEngine.packPanel p = .ok cells)
    (h3 : p.vertices_flat.length % 3 = 0) (rest : List Cell) :
    Decoder.decodePanel (cells ++ rest) = some (decOfPanel p, rest) := by
  obtain ⟨hd, hph, rfl⟩ := packPanel_ok h
  obtain ⟨hb1, hb2, rfl⟩ := panelHeaderCells_ok hph
  have hvflat : ∀ cs, Decoder.readPts (p.vertices_flat.length / 3)
      (p.vertices_flat.map Cell.f32 ++ cs) = some (chunk3 p.vertices_flat, cs) :=
    fun cs => readPts_flatten _ _ _ (by omega)
  rcases hs : p.startPoint with _ | s <;> rcases he : p.endPoint with _ | e' <;>
    simp only [BinaryRenderEngine.endpointCells, hs, he,
      BinaryRenderEngine.hasEndpointsFlag, BinaryRenderEngine.idCells,
      BinaryRenderEngine.padCells, BinaryRenderEngine.vertexCells,
      Option.isSome_none, Option.isSome_some, Bool.false_and, Bool.and_false,
      Bool.and_self, if_true, if_false, Bool.false_eq_true, Bool.true_and,
      List.append_assoc, List.cons_append, List.nil_append] <;>
    simp only [Decoder.decodePanel, readU16_pack _ hb1, readU16_pack _ hb2,
      opt_bind_some, readF32_cons, readByte_cons, readBytes3_zeros, readPt_cons,
      readBytesN_map, readBytesN_replicate_zero, hvflat] <;>
    simp [decOfPanel, hs, he, Prod.mk.eta]

theorem decodePanels_mapEx :
    ∀ (ps : List BinaryRenderEngine.Panel) (bodies : List (List Cell)) (rest : List Cell),
      mapEx BinaryRenderEngine.packPanel ps = .ok bodies →
      (∀ p ∈ ps, p.vertices_flat.length % 3 = 0) →
      Decoder.decodePanels ps.length (bodies.flatten ++ rest) =
        some (ps.map decOfPanel, rest) := by
  intro ps
  induction ps with
  | nil =>
    intro bodies rest h h3
    cases hb : bodies with
    | nil => subst hb; rfl
    | cons c cs => rw [hb] at h; simp [mapEx] at h
  | cons q qs ih =>
    intro bodies rest h h3
    obtain ⟨c, cs, hq, hqs, rfl⟩ := mapEx_ok_cons h
    have hdec := decodePanel_packPanel hq (h3 q (by simp)) (cs.flatten ++ rest)
    simp only [List.length_cons, List.flatten_cons, List.append_assoc,
      Decoder.decodePanels, hdec, opt_bind_some,
      ih cs rest hqs (fun p hp => h3 p (by simp [hp])), List.map_cons]

theorem decode_to_bytes {st : BinaryRenderEngine.State} {buf : List Cell}
    (henc : BinaryRenderEngine.to_bytes st = .ok buf)
    (h3 : ∀ p ∈ st.panels, p.vertices_flat.length % 3 = 0) :
    Decoder.decode buf = some (st.panels.map decOfPanel) := by
  obtain ⟨hd, bodies, hh, hmap, rfl⟩ := to_bytes_ok_parts henc
  cases h1 : packU32 2 with
  | error e => simp [BinaryRenderEngine.headerCells, h1] at hh
  | ok v =>
    cases h2 : packU32 st.panels.length with
    | error e => simp [BinaryRenderEngine.headerCells, h1, h2] at hh
    | ok pc =>
      cases htv : packU32 (BinaryRenderEngine.totalVertices st) with
      | error e => simp [BinaryRenderEngine.headerCells, h1, h2, htv] at hh
      | ok tv =>
        obtain ⟨hv2, rfl⟩ := packU32_ok h1
        obtain ⟨hpc, rfl⟩ := packU32_ok h2
        obtain ⟨htvb, rfl⟩ := packU32_ok htv
        simp only [BinaryRenderEngine.headerCells, h1, h2, htv, exc_bind_ok,
          Except.ok.injEq] at hh
        subst hh
        have hpanels : Decoder.decodePanels st.panels.length (bodies.flatten ++ []) =
            some (st.panels.map decOfPanel, []) :=
          decodePanels_mapEx st.panels bodies [] hmap h3
        rw [List.append_nil] at hpanels
        have hmagic : ∀ cs : List Cell,
            Decoder.readBytesN 4 (BinaryRenderEngine.magicCells ++ cs) =
              some (strBytes "GXML", cs) := fun cs => readBytesN_map (strBytes "GXML") cs
        have hver : ∀ cs : List Cell,
            Decoder.readU32 (.byte 2 :: .byte 0 :: .byte 0 :: .byte 0 :: cs) =
              some (2, cs) := fun cs => by
          simp [Decoder.readU32, Decoder.readByte]
        simp only [Decoder.decode, List.append_assoc, List.cons_append, List.nil_append,
          hmagic, opt_bind_some, ne_eq, eq_self_iff_true, not_true, if_false,
          hver, readU32_pack 2 (by omega), readU32_pack st.panels.length hpc,
          readU32_pack (BinaryRenderEngine.totalVertices st) htvb, hpanels]
        simp

theorem flattenPts_length (l : List Q3) :
    (BinaryRenderEngine.flattenPts l).length = 3 * l.length := by
  induction l with
  | nil => rfl
  | cons p t ih =>
    obtain ⟨x, y, z⟩ := p
    simp [BinaryRenderEngine.flattenPts, ih]
    omega

theorem chunk3_flattenPts (l : List Q3) :
    chunk3 (BinaryRenderEngine.flattenPts l) = l := by
  induction l with
  | nil => rfl
  | cons p t ih =>
    obtain ⟨x, y, z⟩ := p
    show (x, y, z) :: chunk3 (BinaryRenderEngine.flattenPts t) = _
    rw [ih]

theorem pyOrStr_eq (s : ByteStr) : pyOrStr s = s := by
  cases s with
  | nil => rfl
  | cons b t => rfl

theorem endpointCompute_agree (e : Element) :
    (endpointComputeJ e).startPoint = (endpointComputeB e).1 ∧
    (endpointComputeJ e).endPoint = (endpointComputeB e).2 := by
  cases htp : e.transform_point with
  | none => simp [endpointComputeJ, endpointComputeB, htp]
  | some tp =>
    cases h1 : tp startQuery with
    | error u => simp [endpointComputeJ, endpointComputeB, htp, h1]
    | ok s =>
      cases h2 : tp endQuery with
      | error u => simp [endpointComputeJ, endpointComputeB, htp, h1, h2]
      | ok en =>
        cases h3 : convSeq s with
        | none => simp [endpointComputeJ, endpointComputeB, htp, h1, h2, h3]
        | some sp =>
          cases h4 : convSeq en with
          | none => simp [endpointComputeJ, endpointComputeB, htp, h1, h2, h3, h4]
          | some ep =>
            cases h5 : e.rotation with
            | none => simp [endpointComputeJ, endpointComputeB, htp, h1, h2, h3, h4, h5]
            | some r =>
              cases h6 : convRot r with
              | none =>
                simp [endpointComputeJ, endpointComputeB, htp, h1, h2, h3, h4, h5, h6]
              | some rot =>
                simp [endpointComputeJ, endpointComputeB, htp, h1, h2, h3, h4, h5, h6]

theorem stepRel_pre {j : JSONRenderEngine.State} {b : BinaryRenderEngine.State}
    (e : Element) (hrel : stRel j b) :
    stRel (JSONRenderEngine.pre_render e j) (BinaryRenderEngine.pre_render e b) ∧
    (JSONRenderEngine.pre_render e j).panelData.color.isSome = true := by
  obtain ⟨hidx, hcol, hsp, hep, hpan⟩ := hrel
  obtain ⟨hS, hE⟩ := endpointCompute_agree e
  cases hexp : explicitColor e with
  | some c =>
    refine ⟨⟨?_, ?_, ?_, ?_, ?_⟩, ?_⟩ <;>
      simp [JSONRenderEngine.pre_render, BinaryRenderEngine.pre_render, hexp, hidx,
        hS, hE, hpan]
  | none =>
    refine ⟨⟨?_, ?_, ?_, ?_, ?_⟩, ?_⟩ <;>
      simp [JSONRenderEngine.pre_render, BinaryRenderEngine.pre_render, hexp,
        JSONRenderEngine.get_next_color, BinaryRenderEngine.get_next_color, hidx,
        hS, hE, hpan]

theorem stepRel_poly {j j' : JSONRenderEngine.State} {b b' : BinaryRenderEngine.State}
    (id : ByteStr) (pts : List RawPoint) (gk : Option ByteStr)
    (hrel : stRel j b) (hsome : j.panelData.color.isSome = true)
    (hj : JSONRenderEngine.create_poly id pts gk j = .ok j')
    (hb : BinaryRenderEngine.create_poly id pts gk b = .ok b') :
    stRel j' b' ∧ j'.panelData.color.isSome = true := by
  obtain ⟨hidx, hcol, hsp, hep, hpan⟩ := hrel
  obtain ⟨c, hc⟩ := Option.isSome_iff_exists.mp hsome
  cases hn : mapEx normPoint pts with
  | error m => simp [JSONRenderEngine.create_poly, hn] at hj
  | ok nested =>
    cases hx : hex_to_rgb (b.panelData.color.getD (strBytes "#888888")) with
    | error m => simp [BinaryRenderEngine.create_poly, hn, hx] at hb
    | ok rgb =>
      simp only [JSONRenderEngine.create_poly, BinaryRenderEngine.create_poly,
        hn, hx, exc_bind_ok, Except.ok.injEq] at hj hb
      subst hj
      subst hb
      refine ⟨⟨hidx, hcol, hsp, hep, ?_⟩, by simp [hc]⟩
      refine List.rel_append hpan ?_
      refine List.Forall₂.cons ?_ List.Forall₂.nil
      refine ⟨pyOrStr_eq id, rfl, ⟨c, hc, ?_⟩, ?_, ?_⟩
      · have hbc : b.panelData.color = some c := by rw [← hcol]; exact hc
        rw [hbc] at hx
        simpa using hx
      · exact hsp.symm
      · exact hep.symm

theorem runRel : ∀ (evs : List Ev) (j : JSONRenderEngine.State)
    (b : BinaryRenderEngine.State) (j' : JSONRenderEngine.State)
    (b' : BinaryRenderEngine.State),
    stRel j b → j.panelData.color.isSome = true →
    runJFrom evs j = .ok j' → runBFrom evs b = .ok b' →
    stRel j' b' := by
  intro evs
  induction evs with
  | nil =>
    intro j b j' b' hrel _ hj hb
    simp only [runJFrom, Except.ok.injEq] at hj
    simp only [runBFrom, Except.ok.injEq] at hb
    subst hj
    subst hb
    exact hrel
  | cons ev t ih =>
    intro j b j' b' hrel hsome hj hb
    cases ev with
    | preRender e =>
      have hstep := stepRel_pre e hrel
      simp only [runJFrom, stepJ, exc_bind_ok] at hj
      simp only [runBFrom, stepB, exc_bind_ok] at hb
      exact ih _ _ _ _ hstep.1 hstep.2 hj hb
    | createPoly id pts gk =>
      cases hcJ : JSONRenderEngine.create_poly id pts gk j with
      | error m => simp [runJFrom, stepJ, hcJ] at hj
      | ok j1 =>
        cases hcB : BinaryRenderEngine.create_poly id pts gk b with
        | error m => simp [runBFrom, stepB, hcB] at hb
        | ok b1 =>
          simp only [runJFrom, stepJ, hcJ, exc_bind_ok] at hj
          simp only [runBFrom, stepB, hcB, exc_bind_ok] at hb
          have hstep := stepRel_poly id pts gk ⟨hrel.1, hrel.2.1, hrel.2.2.1,
            hrel.2.2.2.1, hrel.2.2.2.2⟩ hsome hcJ hcB
          exact ih _ _ _ _ hstep.1 hstep.2 hj hb

theorem forall₂_mem_right {R : JSONRenderEngine.Panel → BinaryRenderEngine.Panel → Prop} :
    ∀ {L1 : List JSONRenderEngine.Panel} {L2 : List BinaryRenderEngine.Panel},
      List.Forall₂ R L1 L2 → ∀ p ∈ L2, ∃ jp, R jp p := by
  intro L1 L2 h
  induction h with
  | nil => intro p hp; cases hp
  | cons hpair _ ih =>
    intro p hp
    rcases List.mem_cons.mp hp with rfl | hp
    · exact ⟨_, hpair⟩
    · exact ih p hp

theorem roundtrip_of_panelRel :
    ∀ {L1 : List JSONRenderEngine.Panel} {L2 : List BinaryRenderEngine.Panel},
      List.Forall₂ panelRel L1 L2 →
      List.Forall₂ roundtripRel (L2.map decOfPanel) L1 := by
  intro L1 L2 h
  induction h with
  | nil => exact List.Forall₂.nil
  | @cons jp bp _ _ hpair _ ih =>
    refine List.Forall₂.cons ?_ ih
    obtain ⟨hid, hflat, hcolor, _, _⟩ := hpair
    refine ⟨hid, ?_, ?_, ?_⟩
    · show bp.vertices_flat.length / 3 = jp.points.length
      rw [hflat, flattenPts_length]
      omega
    · exact hcolor
    · show chunk3 bp.vertices_flat = jp.points
      rw [hflat, chunk3_flattenPts]

/-- C1: for any accumulator state reached by driving one identical,
protocol-respecting pre_render/create_poly call sequence into both
engines, decoding the buffer produced by to_bytes yields, per panel and
in the same order, the same id bytes, the same vertex count, the same
color (the decoded RGB is exactly the parse of the JSON panel's color
string; the two agree within float32 precision), and the same points as
the corresponding panel of to_dict. -/
theorem binary_roundtrip (script : List Ev) (hwf : wfScript script = true)
    (jst : JSONRenderEngine.State) (bst : BinaryRenderEngine.State) (buf : List Cell)
    (hj : runJ script = .ok jst) (hb : runB script = .ok bst)
    (henc : BinaryRenderEngine.to_bytes bst = .ok buf) :
    ∃ dps, Decoder.decode buf = some dps ∧
      List.Forall₂ roundtripRel dps (JSONRenderEngine.to_dict jst).panels := by
  have h0 : stRel JSONRenderEngine.init BinaryRenderEngine.init :=
    ⟨rfl, rfl, rfl, rfl, List.Forall₂.nil⟩
  have hrel : stRel jst bst := by
    cases script with
    | nil =>
      simp only [runJ, runJFrom, Except.ok.injEq] at hj
      simp only [runB, runBFrom, Except.ok.injEq] at hb
      subst hj
      subst hb
      exact h0
    | cons ev t =>
      cases ev with
      | preRender e =>
        have hstep := stepRel_pre e h0
        simp only [runJ, runJFrom, stepJ, exc_bind_ok] at hj
        simp only [runB, runBFrom, stepB, exc_bind_ok] at hb
        exact runRel t _ _ _ _ hstep.1 hstep.2 hj hb
      | createPoly id pts gk => simp [wfScript] at hwf
  have hpan := hrel.2.2.2.2
  have h3 : ∀ p ∈ bst.panels, p.vertices_flat.length % 3 = 0 := by
    intro p hp
    obtain ⟨jp, hjp⟩ := forall₂_mem_right hpan p hp
    rw [hjp.2.1, flattenPts_length]
    omega
  refine ⟨_, decode_to_bytes henc h3, ?_⟩
  exact roundtrip_of_panelRel hpan

/-- Witness for C1 at the concrete two-call script. -/
theorem binary_roundtrip_witness :
    ∃ dps, Decoder.decode c1buf = some dps ∧
      List.Forall₂ roundtripRel dps (JSONRenderEngine.to_dict c1jst).panels :=
  binary_roundtrip c1script rfl c1jst c1bst c1buf rfl rfl rfl

end GxmlWeb
